import Mathlib

/-!
Verification of the surfclass numerical core against its specification.

The Python modules `surfclass.lidar`, `surfclass.kernelfeatureextraction`,
`surfclass.noise`, `surfclass.classify` and `surfclass.randomforestclassifier`
are shallowly embedded below.  Numpy float64 arithmetic is modelled by exact
rational arithmetic (`ℚ`); uint8 cell values are modelled by `ℕ` together with
explicit `% 256` wrapping where numpy stores into a uint8 buffer; fallible code
is modelled with `Except String`.
-/

namespace Surfclass

/-- Python's `int(q)` / numpy `astype(int)`: truncation toward zero. -/
def pyTrunc (q : ℚ) : ℤ := if 0 ≤ q then ⌊q⌋ else -⌊-q⌋

/-- `surfclass.Bbox`: bounding box `(xmin, ymin, xmax, ymax)` in world coordinates. -/
structure Bbox where
  xmin : ℚ
  ymin : ℚ
  xmax : ℚ
  ymax : ℚ
  deriving DecidableEq, Repr

/-- One LiDAR point record: the fields of the PDAL point array used by
`GridSampler` (`X`, `Y`, `ScanAngleRank` and the sampled dimension's value). -/
structure LidarPoint where
  x : ℚ
  y : ℚ
  scanAngleRank : ℤ
  value : ℤ
  deriving DecidableEq, Repr

/-- The point-selection mask of `GridSampler.crop_to_bbox`:
`xmin <= X < xmax` and `ymin < Y <= ymax` (half-open, asymmetric). -/
def inBbox (b : Bbox) (p : LidarPoint) : Bool :=
  (decide (b.xmin ≤ p.x) && decide (p.x < b.xmax)) &&
    (decide (b.ymin < p.y) && decide (p.y ≤ b.ymax))

/-- `GridSampler.crop_to_bbox`: keep only the points inside the sampling bbox. -/
def cropToBbox (b : Bbox) (pts : List LidarPoint) : List LidarPoint :=
  pts.filter (inBbox b)

/-- `GridSampler._calc_cell_indexes`, column part:
`((X - xmin) / resolution).astype(int)`. -/
def colIx (b : Bbox) (res : ℚ) (p : LidarPoint) : ℤ :=
  pyTrunc ((p.x - b.xmin) / res)

/-- `GridSampler._calc_cell_indexes`, row part:
`((Y - ymax) / (-resolution)).astype(int)`. -/
def rowIx (b : Bbox) (res : ℚ) (p : LidarPoint) : ℤ :=
  pyTrunc ((p.y - b.ymax) / (-res))

/-- The `(row, col)` cell index of a point. -/
def cellIx (b : Bbox) (res : ℚ) (p : LidarPoint) : ℤ × ℤ :=
  (rowIx b res p, colIx b res p)

/-- `GridSampler._calc_grid_shape`, row count: `ceil(|ymax - ymin| / resolution)`. -/
def gridRows (b : Bbox) (res : ℚ) : ℤ := ⌈|b.ymax - b.ymin| / res⌉

/-- `GridSampler._calc_grid_shape`, column count: `ceil(|xmax - xmin| / resolution)`. -/
def gridCols (b : Bbox) (res : ℚ) : ℤ := ⌈|b.xmax - b.xmin| / res⌉

/-- Sort key used to model `np.argsort(abs(ScanAngleRank))` on index-tagged
points: absolute scan angle. -/
def angleKey (ip : ℕ × LidarPoint) : ℤ := |ip.2.scanAngleRank|

/-- Ascending comparison on `(original index, point)` pairs: by absolute scan
angle, ties broken by original position.  `np.argsort` is modelled as a
deterministic sort; on tied keys it keeps the points' original relative order,
which is the reading the specification itself assumes ("stable sort"). -/
def angleIdxLe (a b : ℕ × LidarPoint) : Prop :=
  angleKey a < angleKey b ∨ (angleKey a = angleKey b ∧ a.1 ≤ b.1)

instance : DecidableRel angleIdxLe := fun a b => by
  unfold angleIdxLe; infer_instance

instance : IsTotal (ℕ × LidarPoint) angleIdxLe :=
  ⟨fun a b => by
    unfold angleIdxLe
    rcases lt_trichotomy (angleKey a) (angleKey b) with h | h | h
    · exact Or.inl (Or.inl h)
    · rcases Nat.le_total a.1 b.1 with h1 | h1
      · exact Or.inl (Or.inr ⟨h, h1⟩)
      · exact Or.inr (Or.inr ⟨h.symm, h1⟩)
    · exact Or.inr (Or.inl h)⟩

instance : IsTrans (ℕ × LidarPoint) angleIdxLe :=
  ⟨fun a b c hab hbc => by
    unfold angleIdxLe at *
    rcases hab with h1 | ⟨h1, h1i⟩ <;> rcases hbc with h2 | ⟨h2, h2i⟩
    · exact Or.inl (h1.trans h2)
    · exact Or.inl (h2 ▸ h1)
    · exact Or.inl (h1 ▸ h2)
    · exact Or.inr ⟨h1.trans h2, h1i.trans h2i⟩⟩

/-- `GridSampler._prepare`: with `use_min_scanangle` the index-tagged points are
sorted by ascending absolute scan angle (`np.argsort`) and the sorted order is
then reversed (`[::-1]`), i.e. scattered in descending-angle order; without it,
points are scattered in their original order. -/
def preparePoints (useMinScanangle : Bool) (pts : List LidarPoint) :
    List (ℕ × LidarPoint) :=
  if useMinScanangle then (List.insertionSort angleIdxLe pts.enum).reverse
  else pts.enum

/-- The scatter assignment of `GridSampler.make_grid`:
`out_grid[row_ixes, col_ixes] = values`, in list order, later writes winning. -/
def scatterPoints (b : Bbox) (res : ℚ) (l : List (ℕ × LidarPoint))
    (g : ℤ × ℤ → ℤ) : ℤ × ℤ → ℤ :=
  l.foldl (fun acc ip => Function.update acc (cellIx b res ip.2) ip.2.value) g

/-- `GridSampler.make_grid` (value plane only): a grid pre-filled with `nodata`
into which the prepared points are scattered. -/
def makeGrid (useMinScanangle : Bool) (b : Bbox) (res : ℚ)
    (pts : List LidarPoint) (nodata : ℤ) : ℤ × ℤ → ℤ :=
  scatterPoints b res (preparePoints useMinScanangle pts) (fun _ => nodata)

lemma scatterPoints_cons (b : Bbox) (res : ℚ) (ip : ℕ × LidarPoint)
    (l : List (ℕ × LidarPoint)) (g : ℤ × ℤ → ℤ) :
    scatterPoints b res (ip :: l) g =
      scatterPoints b res l (Function.update g (cellIx b res ip.2) ip.2.value) :=
  rfl

/-- Last-write-wins characterisation of the scatter assignment. -/
lemma scatterPoints_apply (b : Bbox) (res : ℚ) (l : List (ℕ × LidarPoint))
    (g : ℤ × ℤ → ℤ) (c : ℤ × ℤ) :
    scatterPoints b res l g c =
      ((l.filter (fun ip => decide (cellIx b res ip.2 = c))).getLast?).elim (g c)
        (fun ip => ip.2.value) := by
  induction l generalizing g with
  | nil => rfl
  | cons ip t ih =>
    rw [scatterPoints_cons, ih]
    by_cases hc : cellIx b res ip.2 = c
    · rw [List.filter_cons_of_pos (by simpa using hc)]
      cases ht : t.filter (fun ip => decide (cellIx b res ip.2 = c)) with
      | nil =>
        show Option.elim Option.none _ _ = Option.elim (Option.some ip) _ _
        simp only [Option.elim]
        rw [Function.update_apply, if_pos hc.symm]
      | cons q qs =>
        show Option.elim ((q :: qs).getLast?) _ _ = _
        have hlast : ((q :: qs).getLast?).isSome := by
          cases qs <;> simp [List.getLast?]
        obtain ⟨z, hz⟩ := Option.isSome_iff_exists.mp hlast
        have hcc : (ip :: q :: qs).getLast? = (q :: qs).getLast? := rfl
        rw [hcc, hz]
        rfl
    · rw [List.filter_cons_of_neg (by simpa using hc)]
      cases ht : t.filter (fun ip => decide (cellIx b res ip.2 = c)) with
      | nil =>
        show Option.elim Option.none _ _ = Option.elim Option.none _ _
        simp only [Option.elim]
        rw [Function.update_apply, if_neg (fun h => hc h.symm)]
      | cons q qs => rfl

lemma angleIdxLe_antisymm_on_enum (pts : List LidarPoint) (a c : ℕ × LidarPoint)
    (ha : a ∈ pts.enum) (hc : c ∈ pts.enum)
    (h1 : angleIdxLe a c) (h2 : angleIdxLe c a) : a = c := by
  have hidx : a.1 = c.1 := by
    rcases h1 with h1 | ⟨h1, h1i⟩ <;> rcases h2 with h2 | ⟨h2, h2i⟩
    · exact absurd h2 (lt_asymm h1)
    · exact absurd (h2 ▸ h1) (lt_irrefl _)
    · exact absurd (h1 ▸ h2) (lt_irrefl _)
    · exact Nat.le_antisymm h1i h2i
  have hga : pts[a.1]? = some a.2 := List.mem_enum_iff_getElem?.mp ha
  have hgc : pts[c.1]? = some c.2 := List.mem_enum_iff_getElem?.mp hc
  rw [hidx] at hga
  rw [hga] at hgc
  exact Prod.ext hidx (Option.some_injective _ hgc)

/-- C1 (amended): with `use_min_scanangle` enabled, for every cell containing at
least one point, `make_grid` writes the value of a point with the smallest
absolute `ScanAngleRank` in that cell; among points whose absolute scan angles
tie, the surviving point is the one occurring EARLIEST in the original order
(the stable ascending `argsort` is reversed, so tied points are scattered in
reversed original order and the first-in-original-order one is written last).
Stated here as: the point that is minimal for the lexicographic
(absolute angle, original index) order is the one whose value survives. -/
theorem makeGrid_min_scanangle (b : Bbox) (res : ℚ) (pts : List LidarPoint)
    (nodata : ℤ) (c : ℤ × ℤ) (i : ℕ) (p : LidarPoint)
    (hip : (i, p) ∈ pts.enum) (hc : cellIx b res p = c)
    (hmin : ∀ jq ∈ pts.enum, cellIx b res jq.2 = c → angleIdxLe (i, p) jq) :
    makeGrid true b res pts nodata c = p.value := by
  classical
  have hgrid : makeGrid true b res pts nodata c =
      scatterPoints b res (List.insertionSort angleIdxLe pts.enum).reverse
        (fun _ => nodata) c := by
    simp [makeGrid, preparePoints]
  rw [hgrid, scatterPoints_apply, List.filter_reverse, List.getLast?_reverse]
  set P : (ℕ × LidarPoint) → Bool := fun ip => decide (cellIx b res ip.2 = c) with hP
  have hmem : (i, p) ∈ (List.insertionSort angleIdxLe pts.enum).filter P := by
    refine List.mem_filter.mpr ⟨?_, by simpa [hP] using hc⟩
    exact (List.mem_insertionSort angleIdxLe).mpr hip
  have hsorted : List.Sorted angleIdxLe
      ((List.insertionSort angleIdxLe pts.enum).filter P) :=
    (List.sorted_insertionSort angleIdxLe pts.enum).filter P
  cases hsf : (List.insertionSort angleIdxLe pts.enum).filter P with
  | nil => rw [hsf] at hmem; simp at hmem
  | cons h tl =>
    rw [hsf] at hmem hsorted
    have hhmem : h ∈ (List.insertionSort angleIdxLe pts.enum).filter P := by
      rw [hsf]; exact List.mem_cons_self h tl
    obtain ⟨hhs, hhP⟩ := List.mem_filter.mp hhmem
    have hhenum : h ∈ pts.enum := (List.mem_insertionSort angleIdxLe).mp hhs
    have hle2 : angleIdxLe (i, p) h :=
      hmin h hhenum (by simpa [hP] using hhP)
    have heq : h = (i, p) := by
      rcases List.mem_cons.mp hmem with heq | htl
      · exact heq.symm
      · have hle1 : angleIdxLe h (i, p) :=
          (List.pairwise_cons.mp hsorted).1 (i, p) htl
        exact angleIdxLe_antisymm_on_enum pts h (i, p) hhenum hip hle1 hle2
    rw [heq]
    rfl

/-- C1 (counterexample): two points with tied absolute scan angles (+5 and -5)
in the same cell, values 1 then 2 in original order.  A stable descending
pre-sort preserving original order with last-write-wins would keep the later
point's value 2; the code (reversed ascending argsort) keeps the earlier
point's value 1. -/
theorem makeGrid_tie_counterexample :
    makeGrid true ⟨0, 0, 10, 10⟩ 1
        [⟨1/2, 19/2, 5, 1⟩, ⟨1/2, 19/2, -5, 2⟩] 0 (0, 0) = 1 ∧ (1 : ℤ) ≠ 2 := by
  refine ⟨?_, by decide⟩
  have hA : cellIx ⟨0, 0, 10, 10⟩ 1 ⟨1/2, 19/2, 5, 1⟩ = (0, 0) := by
    norm_num [cellIx, rowIx, colIx, pyTrunc]
  have hcond : angleIdxLe (0, ⟨1/2, 19/2, 5, 1⟩) (1, ⟨1/2, 19/2, -5, 2⟩) := by
    right
    exact ⟨by decide, by decide⟩
  have henum : ([⟨1/2, 19/2, 5, 1⟩, ⟨1/2, 19/2, -5, 2⟩] :
      List LidarPoint).enum = [(0, ⟨1/2, 19/2, 5, 1⟩), (1, ⟨1/2, 19/2, -5, 2⟩)] := rfl
  have hsort : List.insertionSort angleIdxLe
      [((0 : ℕ), (⟨1/2, 19/2, 5, 1⟩ : LidarPoint)), (1, ⟨1/2, 19/2, -5, 2⟩)] =
      [(0, ⟨1/2, 19/2, 5, 1⟩), (1, ⟨1/2, 19/2, -5, 2⟩)] := by
    simp only [List.insertionSort, List.orderedInsert]
    rw [if_pos hcond]
  have hgrid : makeGrid true ⟨0, 0, 10, 10⟩ 1
      [⟨1/2, 19/2, 5, 1⟩, ⟨1/2, 19/2, -5, 2⟩] 0 (0, 0) =
      scatterPoints ⟨0, 0, 10, 10⟩ 1
        [((1 : ℕ), (⟨1/2, 19/2, -5, 2⟩ : LidarPoint)), (0, ⟨1/2, 19/2, 5, 1⟩)]
        (fun _ => 0) (0, 0) := by
    simp only [makeGrid, preparePoints, if_true, henum, hsort]
    rfl
  rw [hgrid]
  show Function.update (Function.update (fun _ => (0 : ℤ))
      (cellIx ⟨0, 0, 10, 10⟩ 1 ⟨1/2, 19/2, -5, 2⟩) 2)
      (cellIx ⟨0, 0, 10, 10⟩ 1 ⟨1/2, 19/2, 5, 1⟩) 1 (0, 0) = 1
  rw [Function.update_apply, if_pos hA.symm]

/-- Witness for `makeGrid_min_scanangle`: the spec's own concrete example,
points A(angle=-10, val=1) and B(angle=3, val=2) in the same cell; the
smaller-absolute-angle point B survives with value 2. -/
theorem makeGrid_min_scanangle_witness :
    makeGrid true ⟨0, 0, 10, 10⟩ 1
        [⟨1/2, 19/2, -10, 1⟩, ⟨1/2, 19/2, 3, 2⟩] 0 (0, 0) = 2 := by
  have hB : cellIx ⟨0, 0, 10, 10⟩ 1 ⟨1/2, 19/2, 3, 2⟩ = (0, 0) := by
    norm_num [cellIx, rowIx, colIx, pyTrunc]
  have hmin : ∀ jq ∈ ([⟨1/2, 19/2, -10, 1⟩, ⟨1/2, 19/2, 3, 2⟩] :
      List LidarPoint).enum,
      cellIx ⟨0, 0, 10, 10⟩ 1 jq.2 = (0, 0) →
        angleIdxLe (1, ⟨1/2, 19/2, 3, 2⟩) jq := by
    intro jq hjq _
    rcases List.mem_cons.mp hjq with h | h
    · subst h
      left
      decide
    · rcases List.mem_singleton.mp h
      right
      exact ⟨rfl, le_refl 1⟩
  exact makeGrid_min_scanangle ⟨0, 0, 10, 10⟩ 1
    [⟨1/2, 19/2, -10, 1⟩, ⟨1/2, 19/2, 3, 2⟩] 0 (0, 0) 1 ⟨1/2, 19/2, 3, 2⟩
    (List.mem_cons_of_mem _ (List.mem_cons_self _ _)) hB hmin

/-- C9: every cell index computed for a point that survives `crop_to_bbox` is
inside the allocated grid: `0 <= row < ceil((ymax-ymin)/res)` and
`0 <= col < ceil((xmax-xmin)/res)`, so the scatter in `make_grid` never
indexes outside the `(rows, cols)` grid. -/
theorem cellIndexes_in_bounds (b : Bbox) (res : ℚ) (pts : List LidarPoint)
    (p : LidarPoint) (hres : 0 < res) (hx : b.xmin < b.xmax)
    (hy : b.ymin < b.ymax) (hp : p ∈ cropToBbox b pts) :
    (0 ≤ rowIx b res p ∧ rowIx b res p < gridRows b res) ∧
      (0 ≤ colIx b res p ∧ colIx b res p < gridCols b res) := by
  obtain ⟨hmem, hmask⟩ := List.mem_filter.mp hp
  unfold inBbox at hmask
  simp only [Bool.and_eq_true, decide_eq_true_eq] at hmask
  obtain ⟨⟨hx1, hx2⟩, hy1, hy2⟩ := hmask
  constructor
  · have harg : (p.y - b.ymax) / (-res) = (b.ymax - p.y) / res := by
      rw [div_neg, ← neg_div, neg_sub]
    have h0 : (0 : ℚ) ≤ (b.ymax - p.y) / res := div_nonneg (by linarith) hres.le
    unfold rowIx pyTrunc
    rw [harg, if_pos h0]
    refine ⟨Int.floor_nonneg.mpr h0, ?_⟩
    unfold gridRows
    rw [abs_of_pos (by linarith : (0 : ℚ) < b.ymax - b.ymin)]
    have hlt : (b.ymax - p.y) / res < (b.ymax - b.ymin) / res :=
      (div_lt_div_iff_of_pos_right hres).mpr (by linarith)
    exact Int.floor_lt.mpr (lt_of_lt_of_le hlt (Int.le_ceil _))
  · have h0 : (0 : ℚ) ≤ (p.x - b.xmin) / res := div_nonneg (by linarith) hres.le
    unfold colIx pyTrunc
    rw [if_pos h0]
    refine ⟨Int.floor_nonneg.mpr h0, ?_⟩
    unfold gridCols
    rw [abs_of_pos (by linarith : (0 : ℚ) < b.xmax - b.xmin)]
    have hlt : (p.x - b.xmin) / res < (b.xmax - b.xmin) / res :=
      (div_lt_div_iff_of_pos_right hres).mpr (by linarith)
    exact Int.floor_lt.mpr (lt_of_lt_of_le hlt (Int.le_ceil _))

/-- Witness for `cellIndexes_in_bounds` at a concrete point and bbox. -/
theorem cellIndexes_in_bounds_witness :
    (0 ≤ rowIx ⟨0, 0, 10, 10⟩ 1 ⟨1/2, 19/2, 0, 7⟩ ∧
        rowIx ⟨0, 0, 10, 10⟩ 1 ⟨1/2, 19/2, 0, 7⟩ < gridRows ⟨0, 0, 10, 10⟩ 1) ∧
      (0 ≤ colIx ⟨0, 0, 10, 10⟩ 1 ⟨1/2, 19/2, 0, 7⟩ ∧
        colIx ⟨0, 0, 10, 10⟩ 1 ⟨1/2, 19/2, 0, 7⟩ < gridCols ⟨0, 0, 10, 10⟩ 1) := by
  have hmask : inBbox ⟨0, 0, 10, 10⟩ ⟨1/2, 19/2, 0, 7⟩ = true := by
    norm_num [inBbox]
  have hp : (⟨1/2, 19/2, 0, 7⟩ : LidarPoint) ∈
      cropToBbox ⟨0, 0, 10, 10⟩ [⟨1/2, 19/2, 0, 7⟩] := by
    unfold cropToBbox
    rw [List.filter_cons_of_pos hmask]
    exact List.mem_cons_self _ _
  exact cellIndexes_in_bounds ⟨0, 0, 10, 10⟩ 1 [⟨1/2, 19/2, 0, 7⟩]
    ⟨1/2, 19/2, 0, 7⟩ (by norm_num) (by norm_num) (by norm_num) hp

/-! ### KernelFeatureExtraction (`surfclass.kernelfeatureextraction`) -/

/-- The two validation assertions at the top of
`KernelFeatureExtraction.matrix_as_windows`:
`neighborhood % 2 == 1` (Python `%`, i.e. `Int.emod` for the positive modulus 2)
and `neighborhood <= MAX_ALLOWED_NEIGHBORHOOD` with the constant 13. -/
def neighborhoodValid (n : ℤ) : Bool := decide (n % 2 = 1) && decide (n ≤ 13)

/-- The flattened `n × n` block of `m` whose upper-left corner is `(i, j)`:
one entry of the `(x, y, n**2)` window array built by `matrix_as_windows`. -/
def windowBlock (m : List (List ℚ)) (i j n : ℕ) : List ℚ :=
  (((m.drop i).take n).map (fun row => (row.drop j).take n)).flatten

/-- All windows of `m` for neighborhood `n`, as produced by the
`as_strided`/`reshape` step of `matrix_as_windows`: the output has
`shape[0] - n + 1` rows and `shape[1] - n + 1` columns of flattened blocks. -/
def windowsOf (m : List (List ℚ)) (n : ℕ) : List (List (List ℚ)) :=
  (List.range (m.length + 1 - n)).map fun i =>
    (List.range ((m.headD []).length + 1 - n)).map fun j => windowBlock m i j n

/-- One axis of `np.pad(..., mode="reflect")` with width `w`: mirror the list at
each edge without repeating the edge element (requires `w ≤ length - 1`). -/
def reflect1 {α : Type} (w : ℕ) (l : List α) : List α :=
  ((l.drop 1).take w).reverse ++ l ++ ((l.reverse.drop 1).take w)

/-- `np.pad(matrix, pad_width=w, mode="reflect")` on a 2D array: pad the rows
axis, then pad every (possibly mirrored) row. -/
def reflectPad {α : Type} (w : ℕ) (m : List (List α)) : List (List α) :=
  (reflect1 w m).map (reflect1 w)

/-- `KernelFeatureExtraction.matrix_as_windows`.  The two assertions are checked
first, in source order.  A negative size passes both assertions in the source
(Python `-3 % 2 == 1`) and only fails later inside `np.pad` / `as_strided`
("negative dimensions are not allowed"); that downstream numpy failure is
modelled by the third branch.  Any `crop_mode` other than `"crop"` pads the
input by `(n-1)//2` per side before windowing; the pad contents are modelled
for `"reflect"` (the only non-crop mode the program uses), and the padded
SHAPE is the same for every numpy pad mode. -/
def matrixAsWindows (m : List (List ℚ)) (n : ℤ) (cropMode : String) :
    Except String (List (List (List ℚ))) :=
  if ¬ (n % 2 = 1) then .error "Neighborhood size has to be odd"
  else if ¬ (n ≤ 13) then .error "Neighborhood size can be at most 13"
  else if n ≤ 0 then .error "negative dimensions are not allowed"
  else
    let k := n.toNat
    let w := (k - 1) / 2
    let mp := if cropMode = "crop" then m else reflectPad w m
    .ok (windowsOf mp k)

/-- C8 (amended): the validation at the top of `matrix_as_windows` rejects
exactly the even sizes and the sizes above 13, and `matrix_as_windows` fails
with one of the two assertion messages exactly on those sizes.  In particular
an even `N` is rejected, `N > 13` is rejected and `N = 0` is rejected (it is
even), but a NEGATIVE odd `N` (e.g. `-3`) passes both assertions — contrary to
the claim, `N ≤ 0` is not rejected before window computation; it only fails
inside the window computation itself. -/
theorem neighborhoodValid_iff (n : ℤ) :
    (neighborhoodValid n = false ↔ (n % 2 = 0 ∨ 13 < n)) ∧
    (∀ m cropMode, neighborhoodValid n = true →
      matrixAsWindows m n cropMode ≠ .error "Neighborhood size has to be odd" ∧
      matrixAsWindows m n cropMode ≠
        .error "Neighborhood size can be at most 13") ∧
    (∀ m cropMode, neighborhoodValid n = false →
      matrixAsWindows m n cropMode = .error "Neighborhood size has to be odd" ∨
      matrixAsWindows m n cropMode =
        .error "Neighborhood size can be at most 13") := by
  have hval : neighborhoodValid n = true ↔ (n % 2 = 1 ∧ n ≤ 13) := by
    simp [neighborhoodValid]
  refine ⟨?_, ?_, ?_⟩
  · simp only [neighborhoodValid, Bool.and_eq_false_iff,
      decide_eq_false_iff_not, not_le]
    omega
  · intro m cropMode hv
    obtain ⟨hodd, hle⟩ := hval.mp hv
    unfold matrixAsWindows
    rw [if_neg (not_not_intro hodd), if_neg (not_not_intro hle)]
    by_cases hpos : n ≤ 0
    · rw [if_pos hpos]
      constructor <;> (intro h; injection h with h2; exact absurd h2 (by decide))
    · rw [if_neg hpos]
      exact ⟨fun h => Except.noConfusion h, fun h => Except.noConfusion h⟩
  · intro m cropMode hv
    by_cases hodd : n % 2 = 1
    · have hnle : ¬ n ≤ 13 := by
        intro hle
        exact absurd (hval.mpr ⟨hodd, hle⟩) (by simp [hv])
      right
      unfold matrixAsWindows
      rw [if_neg (not_not_intro hodd), if_pos hnle]
    · left
      unfold matrixAsWindows
      rw [if_pos hodd]

/-- Witness for `neighborhoodValid_iff`: `N = 14` is invalid and
`matrix_as_windows` rejects it with one of the two assertion messages. -/
theorem neighborhoodValid_iff_witness :
    matrixAsWindows [[0]] 14 "crop" = .error "Neighborhood size has to be odd" ∨
      matrixAsWindows [[0]] 14 "crop" =
        .error "Neighborhood size can be at most 13" :=
  (neighborhoodValid_iff 14).2.2 [[0]] "crop" (by decide)

/-- C8 (counterexample): `N = -3` satisfies `N ≤ 0` yet passes both validation
assertions (`-3 % 2 == 1` in Python), and the failure the claim attributes to
validation actually happens during window computation. -/
theorem neighborhoodValid_neg_counterexample :
    neighborhoodValid (-3) = true ∧ ((-3 : ℤ) ≤ 0) ∧
      matrixAsWindows [[0]] (-3) "crop" =
        .error "negative dimensions are not allowed" := by
  refine ⟨by decide, by decide, ?_⟩
  rfl

lemma headD_length {α : Type} {C : ℕ} (m : List (List α))
    (hC : ∀ row ∈ m, row.length = C)
    (hne : m ≠ []) : (m.headD []).length = C := by
  cases m with
  | nil => exact absurd rfl hne
  | cons a t => exact hC a (List.mem_cons_self a t)

lemma getD_map_range {α : Type} (f : ℕ → α) (k i : ℕ) (d : α) (h : i < k) :
    ((List.range k).map f).getD i d = f i := by
  rw [List.getD_eq_getElem?_getD, List.getElem?_map, List.getElem?_range h]
  rfl

lemma windowsOf_length (m : List (List ℚ)) (n : ℕ) :
    (windowsOf m n).length = m.length + 1 - n := by
  simp [windowsOf]

lemma windowsOf_row_length (m : List (List ℚ)) (n : ℕ) (r : List (List ℚ))
    (hr : r ∈ windowsOf m n) : r.length = (m.headD []).length + 1 - n := by
  simp only [windowsOf, List.mem_map] at hr
  obtain ⟨i, _, rfl⟩ := hr
  simp

lemma reflect1_length {α : Type} (w : ℕ) (l : List α) (h : w + 1 ≤ l.length) :
    (reflect1 w l).length = l.length + 2 * w := by
  simp only [reflect1, List.length_append, List.length_reverse, List.length_take,
    List.length_drop]
  omega

lemma reflect1_mem {α : Type} (w : ℕ) (l : List α) (x : α)
    (hx : x ∈ reflect1 w l) : x ∈ l := by
  unfold reflect1 at hx
  rcases List.mem_append.mp hx with hx | hx
  · rcases List.mem_append.mp hx with hx | hx
    · exact List.mem_of_mem_drop (List.mem_of_mem_take (List.mem_reverse.mp hx))
    · exact hx
  · exact List.mem_reverse.mp (List.mem_of_mem_drop (List.mem_of_mem_take hx))

lemma reflect1_getElem? {α : Type} (w : ℕ) (l : List α) (i : ℕ)
    (hw : w + 1 ≤ l.length) (hi : i < l.length) :
    (reflect1 w l)[w + i]? = l[i]? := by
  unfold reflect1
  rw [List.append_assoc]
  have hlen : (((l.drop 1).take w).reverse).length = w := by
    simp only [List.length_reverse, List.length_take, List.length_drop]
    omega
  rw [List.getElem?_append_right (by omega)]
  rw [hlen]
  have : w + i - w = i := by omega
  rw [this, List.getElem?_append_left hi]

/-- C6: for a rectangular `(R, C)` input and a valid odd neighborhood
`N ≤ min R C`, `matrix_as_windows` yields an `(R-(N-1), C-(N-1))` window grid
in `crop` mode and an `(R, C)` window grid in `reflect` mode. -/
theorem matrixAsWindows_shape (m : List (List ℚ)) (R C n : ℕ)
    (hR : m.length = R) (hC : ∀ row ∈ m, row.length = C)
    (hodd : n % 2 = 1) (h13 : n ≤ 13) (hnR : n ≤ R) (hnC : n ≤ C) :
    (∃ wc, matrixAsWindows m (n : ℤ) "crop" = .ok wc ∧
        wc.length = R - (n - 1) ∧ ∀ r ∈ wc, r.length = C - (n - 1)) ∧
    (∃ wr, matrixAsWindows m (n : ℤ) "reflect" = .ok wr ∧
        wr.length = R ∧ ∀ r ∈ wr, r.length = C) := by
  have hn1 : 1 ≤ n := by omega
  have hco1 : ¬ ¬ ((n : ℤ) % 2 = 1) := by
    simp only [not_not]
    omega
  have hco2 : ¬ ¬ ((n : ℤ) ≤ 13) := by
    simp only [not_not]
    omega
  have hco3 : ¬ ((n : ℤ) ≤ 0) := by omega
  have htn : (n : ℤ).toNat = n := by omega
  have hne : m ≠ [] := by
    intro h
    rw [h] at hR
    simp at hR
    omega
  have hhead : (m.headD []).length = C := headD_length m hC hne
  constructor
  · refine ⟨windowsOf m n, ?_, ?_, ?_⟩
    · unfold matrixAsWindows
      rw [if_neg hco1, if_neg hco2, if_neg hco3]
      simp [htn]
    · rw [windowsOf_length, hR]
      omega
    · intro r hr
      rw [windowsOf_row_length m n r hr, hhead]
      omega
  · set w := (n - 1) / 2 with hw
    have h2w : 2 * w = n - 1 := by omega
    have hwR : w + 1 ≤ m.length := by omega
    have houter : (reflect1 w m).length = R + 2 * w := by
      rw [reflect1_length w m hwR, hR]
    have hrowlen : ∀ row ∈ reflectPad w m, row.length = C + 2 * w := by
      intro row hrow
      unfold reflectPad at hrow
      obtain ⟨row0, hrow0, rfl⟩ := List.mem_map.mp hrow
      have hmem : row0 ∈ m := reflect1_mem w m row0 hrow0
      rw [reflect1_length w row0 (by rw [hC row0 hmem]; omega), hC row0 hmem]
    have hplen : (reflectPad w m).length = R + 2 * w := by
      unfold reflectPad
      rw [List.length_map, houter]
    have hpne : reflectPad w m ≠ [] := by
      intro h
      rw [h] at hplen
      simp at hplen
      omega
    have hphead : ((reflectPad w m).headD []).length = C + 2 * w :=
      headD_length (reflectPad w m) hrowlen hpne
    refine ⟨windowsOf (reflectPad w m) n, ?_, ?_, ?_⟩
    · unfold matrixAsWindows
      rw [if_neg hco1, if_neg hco2, if_neg hco3]
      have hrc : ¬ ("reflect" = "crop") := by decide
      simp [htn, hrc, hw]
    · rw [windowsOf_length, hplen]
      omega
    · intro r hr
      rw [windowsOf_row_length _ n r hr, hphead]
      omega

/-- Witness for `matrixAsWindows_shape` on a concrete 3×3 input with `N = 3`:
crop gives a 1×1 window grid, reflect gives a 3×3 window grid. -/
theorem matrixAsWindows_shape_witness :
    (∃ wc, matrixAsWindows [[0, 0, 0], [0, 0, 0], [0, 0, 0]] (3 : ℤ) "crop" =
        .ok wc ∧ wc.length = 3 - (3 - 1) ∧ ∀ r ∈ wc, r.length = 3 - (3 - 1)) ∧
    (∃ wr, matrixAsWindows [[0, 0, 0], [0, 0, 0], [0, 0, 0]] (3 : ℤ) "reflect" =
        .ok wr ∧ wr.length = 3 ∧ ∀ r ∈ wr, r.length = 3) :=
  matrixAsWindows_shape [[0, 0, 0], [0, 0, 0], [0, 0, 0]] 3 3 3 rfl
    (by decide) (by decide) (by decide) (by decide) (by decide)

/-- Scalar nodata test used by the masking steps (`array == nodata`,
`np.ma.masked_values` with exact comparison on the rational model). -/
def isNodataVal (nodata : Option ℚ) (v : ℚ) : Bool :=
  match nodata with
  | some nd => decide (v = nd)
  | none => false

/-- `np.ma.mean` over one flattened window: the arithmetic mean of the entries
not equal to nodata (`np.ma.masked_values` excludes them from the reduction).
A fully masked window yields a masked result; its numeric payload is
irrelevant and modelled as 0. -/
def maskedMean (nodata : Option ℚ) (w : List ℚ) : ℚ :=
  let valid := w.filter fun v => !(isNodataVal nodata v)
  if valid.length = 0 then 0 else valid.sum / (valid.length : ℚ)

/-- `np.ma.var` over one flattened window: population variance (denominator =
number of valid entries) of the entries not equal to nodata. -/
def maskedVar (nodata : Option ℚ) (w : List ℚ) : ℚ :=
  let valid := w.filter fun v => !(isNodataVal nodata v)
  if valid.length = 0 then 0
  else ((valid.map fun v => (v - maskedMean nodata w) ^ 2).sum) /
    (valid.length : ℚ)

/-- 2D array access with defaults (only used at in-range indices). -/
def getQ (m : List (List ℚ)) (i j : ℕ) : ℚ := (m.getD i []).getD j 0

/-- Window-grid access with defaults (only used at in-range indices). -/
def getW (ws : List (List (List ℚ))) (i j : ℕ) : List ℚ := (ws.getD i []).getD j []

/-- A 2D data plane together with its nodata mask, as carried by the
`np.ma.masked_array` results yielded by `calculate_derived_features`. -/
structure MaskedGrid where
  data : List (List ℚ)
  mask : List (List Bool)
  deriving DecidableEq, Repr

/-- `KernelFeatureExtraction.calculate_derived_features` for a single requested
feature.  The feature name is validated first (`_validate_feature_keys` runs at
construction time).  `edge_size` is 0 unless the window grid is smaller than
the input (crop mode with `N > 1`), in which case it is `(N-1)//2`; the output
mask at `(i, j)` is the OR of the center-cell nodata mask `mask[crop_indices]`
and the reduction mask of `np.ma.mean`/`np.ma.var` (true when every window
entry is nodata) — `np.ma.masked_array(data, mask=...)` combines the two with
`keep_mask`. -/
def calcFeature (arr : List (List ℚ)) (nodata : Option ℚ) (n : ℤ)
    (cropMode : String) (feat : String) : Except String MaskedGrid :=
  if ¬ (feat = "mean" ∨ feat = "var" ∨ feat = "diffmean") then
    .error "feature is not supported"
  else
    (matrixAsWindows arr n cropMode).map fun ws =>
      let R := arr.length
      let C := (arr.headD []).length
      let wR := ws.length
      let wC := (ws.headD []).length
      let e := if wR = R ∧ wC = C then 0 else (n.toNat - 1) / 2
      let cellMask : ℕ → ℕ → Bool := fun i j =>
        isNodataVal nodata (getQ arr (i + e) (j + e)) ||
          (getW ws i j).all fun v => isNodataVal nodata v
      let cellData : ℕ → ℕ → ℚ := fun i j =>
        if feat = "mean" then maskedMean nodata (getW ws i j)
        else if feat = "var" then maskedVar nodata (getW ws i j)
        else getQ arr (i + e) (j + e) - maskedMean nodata (getW ws i j)
      { data := (List.range wR).map fun i => (List.range wC).map fun j =>
          cellData i j
        mask := (List.range wR).map fun i => (List.range wC).map fun j =>
          cellMask i j }

lemma getW_windowsOf (m : List (List ℚ)) (n i j : ℕ)
    (hi : i < m.length + 1 - n) (hj : j < (m.headD []).length + 1 - n) :
    getW (windowsOf m n) i j = windowBlock m i j n := by
  unfold getW windowsOf
  rw [getD_map_range _ _ _ _ hi, getD_map_range _ _ _ _ hj]

lemma mem_windowBlock (m : List (List ℚ)) (C i j n a b : ℕ)
    (hC : ∀ row ∈ m, row.length = C)
    (ha : a < n) (hb : b < n) (hi : i + n ≤ m.length) (hj : j + n ≤ C) :
    getQ m (i + a) (j + b) ∈ windowBlock m i j n := by
  have hia : i + a < m.length := by omega
  obtain ⟨row, hrow⟩ : ∃ row, m[i + a]? = some row := by
    rw [List.getElem?_eq_getElem hia]
    exact ⟨_, rfl⟩
  have hrowmem : row ∈ m := List.get?_mem (by rw [List.get?_eq_getElem?]; exact hrow)
  have hrowlen : row.length = C := hC row hrowmem
  have hjb : j + b < row.length := by omega
  obtain ⟨v, hv⟩ : ∃ v, row[j + b]? = some v := by
    rw [List.getElem?_eq_getElem hjb]
    exact ⟨_, rfl⟩
  have hval : getQ m (i + a) (j + b) = v := by
    unfold getQ
    simp only [List.getD_eq_getElem?_getD]
    rw [hrow]
    simp only [Option.getD_some]
    rw [hv]
    rfl
  rw [hval]
  apply List.mem_flatten.mpr
  refine ⟨(row.drop j).take n, List.mem_map_of_mem _ ?_, ?_⟩
  · apply List.get?_mem (n := a)
    rw [List.get?_eq_getElem?]
    rw [List.getElem?_take_of_lt ha, List.getElem?_drop]
    exact hrow
  · apply List.get?_mem (n := b)
    rw [List.get?_eq_getElem?]
    rw [List.getElem?_take_of_lt hb, List.getElem?_drop]
    exact hv

lemma reflectPad_getQ (w : ℕ) (m : List (List ℚ)) (C i j : ℕ)
    (hC : ∀ row ∈ m, row.length = C)
    (hwR : w + 1 ≤ m.length) (hwC : w + 1 ≤ C) (hi : i < m.length) (hj : j < C) :
    getQ (reflectPad w m) (i + w) (j + w) = getQ m i j := by
  obtain ⟨row, hrow⟩ : ∃ row, m[i]? = some row := by
    rw [List.getElem?_eq_getElem hi]
    exact ⟨_, rfl⟩
  have hrowmem : row ∈ m := List.get?_mem (by rw [List.get?_eq_getElem?]; exact hrow)
  have hrowlen : row.length = C := hC row hrowmem
  have houter : (reflect1 w m)[w + i]? = some row := by
    rw [reflect1_getElem? w m i hwR hi]
    exact hrow
  have hmap : (reflectPad w m)[w + i]? = some (reflect1 w row) := by
    unfold reflectPad
    rw [List.getElem?_map, houter]
    rfl
  have hinner : (reflect1 w row)[w + j]? = row[j]? := by
    apply reflect1_getElem? w row j (by omega) (by omega)
  unfold getQ
  simp only [List.getD_eq_getElem?_getD]
  rw [Nat.add_comm i w, hmap]
  simp only [Option.getD_some]
  rw [Nat.add_comm j w, hinner, hrow]
  simp only [Option.getD_some]

lemma matrixAsWindows_crop_eq (m : List (List ℚ)) (n : ℕ)
    (hodd : n % 2 = 1) (h13 : n ≤ 13) :
    matrixAsWindows m (n : ℤ) "crop" = .ok (windowsOf m n) := by
  unfold matrixAsWindows
  rw [if_neg (by simp only [not_not]; omega), if_neg (by simp only [not_not]; omega),
    if_neg (by omega)]
  simp [show ((n : ℤ)).toNat = n by omega]

lemma matrixAsWindows_reflect_eq (m : List (List ℚ)) (n : ℕ)
    (hodd : n % 2 = 1) (h13 : n ≤ 13) :
    matrixAsWindows m (n : ℤ) "reflect" =
      .ok (windowsOf (reflectPad ((n - 1) / 2) m) n) := by
  unfold matrixAsWindows
  rw [if_neg (by simp only [not_not]; omega), if_neg (by simp only [not_not]; omega),
    if_neg (by omega)]
  have hrc : ¬ ("reflect" = "crop") := by decide
  simp [show ((n : ℤ)).toNat = n by omega, hrc]

lemma reflectPad_length {α : Type} (w : ℕ) (m : List (List α))
    (h : w + 1 ≤ m.length) : (reflectPad w m).length = m.length + 2 * w := by
  unfold reflectPad
  rw [List.length_map, reflect1_length w m h]

lemma reflectPad_row_length (w : ℕ) (m : List (List ℚ)) (C : ℕ)
    (hC : ∀ row ∈ m, row.length = C) (hwC : w + 1 ≤ C) :
    ∀ row ∈ reflectPad w m, row.length = C + 2 * w := by
  intro row hrow
  unfold reflectPad at hrow
  obtain ⟨row0, hrow0, rfl⟩ := List.mem_map.mp hrow
  have hmem : row0 ∈ m := reflect1_mem w m row0 hrow0
  rw [reflect1_length w row0 (by rw [hC row0 hmem]; omega), hC row0 hmem]

lemma mask_iff_center (nd center : ℚ) (wlist : List ℚ) (hmem : center ∈ wlist) :
    ((isNodataVal (some nd) center ||
        wlist.all fun v => isNodataVal (some nd) v) = true) ↔ center = nd := by
  constructor
  · intro h
    rcases Bool.or_eq_true_iff.mp h with h | h
    · simpa [isNodataVal] using h
    · have := List.all_eq_true.mp h center hmem
      simpa [isNodataVal] using this
  · intro h
    apply Bool.or_eq_true_iff.mpr
    left
    simp [isNodataVal, h]

/-- C7: for every input raster with a scalar nodata value, every valid odd
neighborhood `N ≤ min R C` and every requested feature (mean, var, diffmean),
the output cell corresponding to original-input position
`(i + e, j + e)` (`e = (N-1)/2` in crop mode, `e = 0` in reflect mode) is
masked if and only if the original input value at that position equals nodata —
independent of how many of the `N*N` neighbors are valid. -/
theorem calcFeature_center_mask (arr : List (List ℚ)) (nd : ℚ) (n R C : ℕ)
    (cropMode feat : String) (g : MaskedGrid) (i j : ℕ)
    (hR : arr.length = R) (hC : ∀ row ∈ arr, row.length = C)
    (hodd : n % 2 = 1) (h13 : n ≤ 13) (hnR : n ≤ R) (hnC : n ≤ C)
    (hmode : cropMode = "crop" ∨ cropMode = "reflect")
    (hfeat : feat = "mean" ∨ feat = "var" ∨ feat = "diffmean")
    (hok : calcFeature arr (some nd) (n : ℤ) cropMode feat = .ok g)
    (hi : i < (if cropMode = "crop" then R - (n - 1) else R))
    (hj : j < (if cropMode = "crop" then C - (n - 1) else C)) :
    ((g.mask.getD i []).getD j false = true ↔
      getQ arr (i + (if cropMode = "crop" then (n - 1) / 2 else 0))
        (j + (if cropMode = "crop" then (n - 1) / 2 else 0)) = nd) := by
  have hn1 : 1 ≤ n := by omega
  have hne : arr ≠ [] := by
    intro h
    rw [h] at hR
    simp at hR
    omega
  have hhead : (arr.headD []).length = C := headD_length arr hC hne
  have htn : ((n : ℤ)).toNat = n := by omega
  unfold calcFeature at hok
  rw [if_neg (not_not_intro hfeat)] at hok
  rcases hmode with hmode | hmode <;> subst hmode
  · -- crop mode
    rw [if_pos rfl] at hi hj
    rw [matrixAsWindows_crop_eq arr n hodd h13] at hok
    simp only [Except.map, Except.ok.injEq] at hok
    set ws := windowsOf arr n with hws
    have hwR : ws.length = R + 1 - n := by rw [hws, windowsOf_length, hR]
    have hwsne : ws ≠ [] := by
      intro h
      rw [h] at hwR
      simp at hwR
      omega
    have hwC : (ws.headD []).length = C + 1 - n := by
      refine headD_length (C := C + 1 - n) ws ?_ hwsne
      intro r hr
      rw [windowsOf_row_length arr n r hr, hhead]
    subst hok
    dsimp only
    have h1 : i < ws.length := by omega
    have h2 : j < (ws.headD []).length := by omega
    rw [getD_map_range _ _ _ _ h1, getD_map_range _ _ _ _ h2]
    have he : (if ws.length = arr.length ∧
        (ws.headD []).length = (arr.headD []).length then 0
        else (((n : ℤ)).toNat - 1) / 2) = (n - 1) / 2 := by
      by_cases hcnd : ws.length = arr.length ∧
          (ws.headD []).length = (arr.headD []).length
      · rw [if_pos hcnd]
        have : n = 1 := by
          have := hcnd.1
          omega
        omega
      · rw [if_neg hcnd, htn]
    rw [he]
    have hcc : (if ("crop" : String) = "crop" then (n - 1) / 2 else 0) =
        (n - 1) / 2 := if_pos rfl
    rw [hcc]
    have hwin : getW ws i j = windowBlock arr i j n := by
      rw [hws]
      exact getW_windowsOf arr n i j (by omega) (by rw [hhead]; omega)
    rw [hwin]
    refine mask_iff_center nd _ _ ?_
    exact mem_windowBlock arr C i j n ((n - 1) / 2) ((n - 1) / 2) hC
      (by omega) (by omega) (by omega) (by omega)
  · -- reflect mode
    rw [if_neg (by decide)] at hi hj
    rw [matrixAsWindows_reflect_eq arr n hodd h13] at hok
    simp only [Except.map, Except.ok.injEq] at hok
    set w := (n - 1) / 2 with hwdef
    set mp := reflectPad w arr with hmp
    have hwR1 : w + 1 ≤ arr.length := by omega
    have hwC1 : w + 1 ≤ C := by omega
    have hplen : mp.length = R + 2 * w := by
      rw [hmp, reflectPad_length w arr hwR1, hR]
    have hprow : ∀ row ∈ mp, row.length = C + 2 * w :=
      reflectPad_row_length w arr C hC hwC1
    have hpne : mp ≠ [] := by
      intro h
      rw [h] at hplen
      simp at hplen
      omega
    have hphead : (mp.headD []).length = C + 2 * w :=
      headD_length mp hprow hpne
    set ws := windowsOf mp n with hws
    have hwR : ws.length = R := by
      rw [hws, windowsOf_length, hplen]
      omega
    have hwC : (ws.headD []).length = C := by
      have hwsne : ws ≠ [] := by
        intro h
        rw [h] at hwR
        simp at hwR
        omega
      have : (ws.headD []).length = (mp.headD []).length + 1 - n := by
        refine headD_length ws ?_ hwsne
        intro r hr
        rw [hws] at hr
        rw [windowsOf_row_length mp n r hr]
      rw [this, hphead]
      omega
    subst hok
    dsimp only
    have h1 : i < ws.length := by omega
    have h2 : j < (ws.headD []).length := by omega
    rw [getD_map_range _ _ _ _ h1, getD_map_range _ _ _ _ h2]
    have he : (if ws.length = arr.length ∧
        (ws.headD []).length = (arr.headD []).length then 0
        else (((n : ℤ)).toNat - 1) / 2) = 0 := by
      rw [if_pos ⟨by omega, by omega⟩]
    rw [he]
    have hcc : (if ("reflect" : String) = "crop" then (n - 1) / 2 else 0) = 0 :=
      if_neg (by decide)
    rw [hcc]
    have hwin : getW ws i j = windowBlock mp i j n := by
      rw [hws]
      exact getW_windowsOf mp n i j (by omega) (by rw [hphead]; omega)
    rw [hwin]
    have hcenter : getQ arr (i + 0) (j + 0) = getQ mp (i + w) (j + w) := by
      rw [Nat.add_zero, Nat.add_zero]
      exact (reflectPad_getQ w arr C i j hC hwR1 hwC1 (by omega) (by omega)).symm
    rw [hcenter]
    refine mask_iff_center nd _ _ ?_
    exact mem_windowBlock mp (C + 2 * w) i j n w w hprow
      (by omega) (by omega) (by omega) (by omega)

/-- Witness for `calcFeature_center_mask`: a 1×1 raster whose single cell
equals the nodata value 9; the output cell is masked and the iff holds. -/
theorem calcFeature_center_mask_witness :
    calcFeature [[(9 : ℚ)]] (some 9) ((1 : ℕ) : ℤ) "crop" "mean" =
        .ok ⟨[[0]], [[true]]⟩ ∧
      (((⟨[[0]], [[true]]⟩ : MaskedGrid).mask.getD 0 []).getD 0 false = true ↔
        getQ [[(9 : ℚ)]]
          (0 + (if ("crop" : String) = "crop" then (1 - 1) / 2 else 0))
          (0 + (if ("crop" : String) = "crop" then (1 - 1) / 2 else 0)) = 9) := by
  have hok : calcFeature [[(9 : ℚ)]] (some 9) ((1 : ℕ) : ℤ) "crop" "mean" =
      .ok ⟨[[0]], [[true]]⟩ := by rfl
  refine ⟨hok, ?_⟩
  exact calcFeature_center_mask [[(9 : ℚ)]] 9 1 1 1 "crop" "mean"
    ⟨[[0]], [[true]]⟩ 0 0 rfl (by decide) (by decide) (by decide) (by decide)
    (by decide) (Or.inl rfl) (Or.inl rfl) hok (by decide) (by decide)

/-! ### Noise removal (`surfclass.noise`) -/

/-- A numpy array as seen by `surfclass.noise`: either a plain `ndarray` or a
`MaskedArray` (uint8 data, modelled as `ℕ` with values kept below 256). -/
inductive NpArr where
  | plain (data : List (List ℕ))
  | maskedArr (data : List (List ℕ)) (mask : List (List Bool))
  deriving DecidableEq, Repr

/-- Does a 2D mask contain any `True`? -/
def anyTrue (m : List (List Bool)) : Bool := m.any fun r => r.any id

/-- `np.ma.is_masked`: true only for a `MaskedArray` with at least one masked
cell. -/
def isMaskedArr : NpArr → Bool
  | .plain _ => false
  | .maskedArr _ m => anyTrue m

/-- All values at unmasked positions, row-major (the values `np.max` ranges
over on a `MaskedArray`). -/
def unmaskedVals (d : List (List ℕ)) (m : List (List Bool)) : List ℕ :=
  (d.zip m).flatMap fun rm =>
    (rm.1.zip rm.2).filterMap fun vm => if vm.2 then none else some vm.1

/-- `np.max` of a `MaskedArray`: maximum of the unmasked values.  The all-masked
case (numpy returns the `masked` constant after a warning) is not modelled;
theorems assume at least one unmasked cell. -/
def maxUnmasked (d : List (List ℕ)) (m : List (List Bool)) : ℕ :=
  (unmaskedVals d m).max?.getD 0

/-- `MaskedArray.filled(v)`: replace masked cells by `v` (already reduced
modulo 256 by the caller where numpy would store into the uint8 buffer). -/
def fillMasked (d : List (List ℕ)) (m : List (List Bool)) (v : ℕ) :
    List (List ℕ) :=
  (d.zip m).map fun rm => (rm.1.zip rm.2).map fun vm => if vm.2 then v else vm.1

/-- Cell lookup with `Option` for out-of-image positions. -/
def getCell (d : List (List ℕ)) (i j : ℤ) : Option ℕ :=
  if i < 0 ∨ j < 0 then none
  else (d[i.toNat]?).bind fun row => row[j.toNat]?

/-- The 3×3 neighborhood of `(r, c)` truncated at the image border, row-major:
skimage rank filters (`rank.windowed_histogram` with `np.ones((3,3))`) count
only the footprint pixels that lie inside the image. -/
def nbhd (d : List (List ℕ)) (r c : ℤ) : List ℕ :=
  (([-1, 0, 1] : List ℤ).flatMap fun dr =>
    ([-1, 0, 1] : List ℤ).map fun dc => (r + dr, c + dc)).filterMap
    fun rc => getCell d rc.1 rc.2

/-- `windowed_histogram(..).argmax(axis=-1)` at one pixel: the smallest value
among those with the highest count in the neighborhood (`argmax` returns the
first maximal histogram bin). -/
def smallestMode (vals : List ℕ) : ℕ :=
  let mc := (vals.map fun v => vals.count v).max?.getD 0
  ((vals.filter fun v => vals.count v == mc).min?).getD 0

/-- One majority-vote sweep over the whole image. -/
def voteOnce (d : List (List ℕ)) : List (List ℕ) :=
  (List.range d.length).map fun r =>
    (List.range ((d.getD r []).length)).map fun c =>
      smallestMode (nbhd d (r : ℤ) (c : ℤ))

/-- `iterations` majority-vote sweeps. -/
def voteIter (d : List (List ℕ)) : ℕ → List (List ℕ)
  | 0 => d
  | k + 1 => voteIter (voteOnce d) k

/-- `noise.majority_vote`.  For a masked input with at least one masked cell,
the masked cells are remapped to `np.max(a) + 1` — stored into the uint8
buffer, hence `% 256` (numpy of this era wraps silently on out-of-range
`filled`) — the vote runs on the filled data, and afterwards
`np.ma.masked_values(a, nodata)` masks exactly the cells whose voted value
equals the UNWRAPPED sentinel.  Unmasked inputs are voted as plain data and
returned as a plain `ndarray` (with 0 iterations the input object is returned
unchanged). -/
def majorityVote (a : NpArr) (iterations : ℕ) : NpArr :=
  match a with
  | .plain d => .plain (voteIter d iterations)
  | .maskedArr d m =>
    if anyTrue m then
      let sentinel := maxUnmasked d m + 1
      let voted := voteIter (fillMasked d m (sentinel % 256)) iterations
      .maskedArr voted (voted.map fun row => row.map fun v => v == sentinel)
    else if iterations = 0 then .maskedArr d m
    else .plain (voteIter d iterations)

/-- Squared Euclidean distance between two cells. -/
def cellDist2 (r1 c1 r2 c2 : ℕ) : ℤ :=
  ((r1 : ℤ) - r2) ^ 2 + ((c1 : ℤ) - c2) ^ 2

/-- Lexicographic comparison on `(distance², row, col)` keys. -/
def nnKeyLt (a b : ℤ × ℕ × ℕ) : Bool :=
  decide (a.1 < b.1) ||
    (decide (a.1 = b.1) &&
      (decide (a.2.1 < b.2.1) ||
        (decide (a.2.1 = b.2.1) && decide (a.2.2 < b.2.2))))

/-- `noise.fill_nearest_neighbor`'s infill: every masked cell takes the value
of the nearest unmasked cell by Euclidean distance
(`scipy.ndimage.distance_transform_edt` with `return_indices`); scipy's
deterministic tie-break is modelled as lexicographic on `(distance², row,
col)`. -/
def fillNN (d : List (List ℕ)) (m : List (List Bool)) : List (List ℕ) :=
  let cells : List (ℕ × ℕ × ℕ) :=
    (List.range d.length).flatMap fun r =>
      (List.range ((d.getD r []).length)).filterMap fun c =>
        if (m.getD r []).getD c false then none
        else some (r, c, (d.getD r []).getD c 0)
  (List.range d.length).map fun r =>
    (List.range ((d.getD r []).length)).map fun c =>
      if (m.getD r []).getD c false then
        ((cells.foldl (fun best cand =>
          match best with
          | none => some cand
          | some b =>
            if nnKeyLt (cellDist2 cand.1 cand.2.1 r c, cand.1, cand.2.1)
                (cellDist2 b.1 b.2.1 r c, b.1, b.2.1) then some cand
            else some b) none).map fun b => b.2.2).getD 0
      else (d.getD r []).getD c 0

/-- `noise.fill_nearest_neighbor`: raise `TypeError` on a plain `ndarray`,
return the input unchanged when nothing is masked, otherwise return the dense
infilled plain array. -/
def fillNearestNeighbor (a : NpArr) : Except String NpArr :=
  match a with
  | .plain _ => .error "Input must be masked array"
  | .maskedArr d m =>
    if anyTrue m then .ok (.plain (fillNN d m)) else .ok (.maskedArr d m)

/-- `MaskedArray.filled()` with numpy's default integer fill value 999999,
wrapped into the uint8 buffer (999999 % 256 = 63); plain arrays are returned
as-is.  (In `denoise` this branch is unreachable: the final majority vote of
a dense intermediate always returns a plain array.) -/
def filledDefault : NpArr → List (List ℕ)
  | .plain d => d
  | .maskedArr d m => fillMasked d m (999999 % 256)

/-- `noise.denoise`: two majority-vote iterations, nearest-neighbor infill,
one more majority-vote iteration, then `.filled()` if still masked. -/
def denoise (a : NpArr) : Except String (List (List ℕ)) := do
  let a1 := majorityVote a 2
  let a2 ← fillNearestNeighbor a1
  let a3 := majorityVote a2 1
  return filledDefault a3

/-- C3 (amended): `denoise` never returns unchanged on a fully-dense input —
it raises `TypeError("Input must be masked array")`: on dense input the
majority-vote stage returns a plain unmasked `ndarray`, which
`fill_nearest_neighbor` rejects.  The second `denoise` of the claim therefore
raises instead of returning the raster. -/
theorem denoise_dense_raises (a : NpArr) (h : isMaskedArr a = false) :
    denoise a = .error "Input must be masked array" := by
  cases a with
  | plain d => rfl
  | maskedArr d m =>
    have hm : anyTrue m = false := h
    have h1 : majorityVote (NpArr.maskedArr d m) 2 = .plain (voteIter d 2) := by
      simp [majorityVote, hm]
    unfold denoise
    rw [h1]
    rfl

/-- Witness for `denoise_dense_raises` on a concrete dense array. -/
theorem denoise_dense_raises_witness :
    denoise (.plain [[1, 1], [1, 1]]) = .error "Input must be masked array" :=
  denoise_dense_raises (.plain [[1, 1], [1, 1]]) rfl

/-- C3 (counterexample): `[[1,1],[1,1]]` IS a `denoise` output (of a concrete
masked input) with no clusters below any minimum size up to its own cell
count, yet running `denoise` on it raises `TypeError` instead of returning it
unchanged. -/
theorem denoise_not_idempotent_counterexample :
    denoise (.maskedArr [[1, 1], [1, 1]] [[true, false], [false, false]]) =
        .ok [[1, 1], [1, 1]] ∧
      denoise (.plain [[1, 1], [1, 1]]) ≠ .ok [[1, 1], [1, 1]] := by
  constructor
  · rfl
  · intro h
    have : denoise (.plain [[1, 1], [1, 1]]) =
        .error "Input must be masked array" := rfl
    rw [this] at h
    exact Except.noConfusion h

lemma le_foldl_max (t : List ℕ) (a : ℕ) :
    a ≤ t.foldl max a ∧ ∀ v ∈ t, v ≤ t.foldl max a := by
  induction t generalizing a with
  | nil => simp
  | cons b t ih =>
    refine ⟨le_trans (Nat.le_max_left a b) (ih (max a b)).1, ?_⟩
    intro v hv
    rcases List.mem_cons.mp hv with rfl | hv
    · exact le_trans (Nat.le_max_right a v) (ih (max a v)).1
    · exact (ih (max a b)).2 v hv

lemma mem_le_max?_getD (l : List ℕ) (v : ℕ) (h : v ∈ l) : v ≤ l.max?.getD 0 := by
  cases l with
  | nil => simp at h
  | cons a t =>
    have hmax : (a :: t).max? = some (t.foldl max a) := rfl
    rw [hmax, Option.getD_some]
    rcases List.mem_cons.mp h with rfl | h
    · exact (le_foldl_max t v).1
    · exact (le_foldl_max t a).2 v h

lemma any_map_comp {α β : Type} (l : List α) (f : α → β) (p : β → Bool) :
    (l.map f).any p = l.any fun a => p (f a) := by
  induction l with
  | nil => rfl
  | cons a t ih => simp only [List.map_cons, List.any_cons, ih]

lemma anyTrue_beq_mask_iff (voted : List (List ℕ)) (s : ℕ) :
    anyTrue (voted.map fun row => row.map fun v => v == s) = true ↔
      ∃ row ∈ voted, s ∈ row := by
  unfold anyTrue
  rw [any_map_comp, List.any_eq_true]
  constructor
  · rintro ⟨row, hrow, hr⟩
    rw [any_map_comp, List.any_eq_true] at hr
    obtain ⟨v, hv, hvs⟩ := hr
    rw [id_eq, beq_iff_eq] at hvs
    exact ⟨row, hrow, hvs ▸ hv⟩
  · rintro ⟨row, hrow, hs⟩
    refine ⟨row, hrow, ?_⟩
    rw [any_map_comp, List.any_eq_true]
    exact ⟨s, hs, by simp⟩

/-- C4 (amended): for a masked uint8 input with at least one masked and one
unmasked cell and with maximum unmasked value BELOW 255, the temporary nodata
value `max(existing unmasked values) + 1` is distinct from every unmasked
value, and after voting exactly the cells whose voted value equals the
sentinel are re-masked (`np.ma.masked_values` masks by value after the vote —
an original nodata cell whose vote was won by a real class is NOT re-masked);
consequently the returned array is still masked anywhere if and only if some
voted cell carries the sentinel value. -/
theorem majorityVote_sentinel (d : List (List ℕ)) (m : List (List Bool)) (k : ℕ)
    (hm : anyTrue m = true) (hne : unmaskedVals d m ≠ [])
    (hmax : maxUnmasked d m < 255) :
    (∀ v ∈ unmaskedVals d m, v ≠ maxUnmasked d m + 1) ∧
      majorityVote (.maskedArr d m) k =
        .maskedArr (voteIter (fillMasked d m (maxUnmasked d m + 1)) k)
          ((voteIter (fillMasked d m (maxUnmasked d m + 1)) k).map fun row =>
            row.map fun v => v == maxUnmasked d m + 1) ∧
      (isMaskedArr (majorityVote (.maskedArr d m) k) = true ↔
        ∃ row ∈ voteIter (fillMasked d m (maxUnmasked d m + 1)) k,
          maxUnmasked d m + 1 ∈ row) := by
  have hs : (maxUnmasked d m + 1) % 256 = maxUnmasked d m + 1 :=
    Nat.mod_eq_of_lt (by omega)
  refine ⟨?_, ?_, ?_⟩
  · intro v hv
    have hle : v ≤ maxUnmasked d m := mem_le_max?_getD _ v hv
    omega
  · simp only [majorityVote, hm, if_true, hs]
  · simp only [majorityVote, hm, if_true, hs, isMaskedArr]
    exact anyTrue_beq_mask_iff _ _

/-- Witness for `majorityVote_sentinel` on the row [1, 0, masked]. -/
theorem majorityVote_sentinel_witness :
    (∀ v ∈ unmaskedVals [[1, 0, 3]] [[false, false, true]],
        v ≠ maxUnmasked [[1, 0, 3]] [[false, false, true]] + 1) ∧
      majorityVote (.maskedArr [[1, 0, 3]] [[false, false, true]]) 1 =
        .maskedArr (voteIter (fillMasked [[1, 0, 3]] [[false, false, true]]
            (maxUnmasked [[1, 0, 3]] [[false, false, true]] + 1)) 1)
          ((voteIter (fillMasked [[1, 0, 3]] [[false, false, true]]
              (maxUnmasked [[1, 0, 3]] [[false, false, true]] + 1)) 1).map
            fun row => row.map fun v =>
              v == maxUnmasked [[1, 0, 3]] [[false, false, true]] + 1) ∧
      (isMaskedArr
          (majorityVote (.maskedArr [[1, 0, 3]] [[false, false, true]]) 1) =
            true ↔
        ∃ row ∈ voteIter (fillMasked [[1, 0, 3]] [[false, false, true]]
            (maxUnmasked [[1, 0, 3]] [[false, false, true]] + 1)) 1,
          maxUnmasked [[1, 0, 3]] [[false, false, true]] + 1 ∈ row) :=
  majorityVote_sentinel [[1, 0, 3]] [[false, false, true]] 1 rfl
    (by decide) (by decide)

/-- C4 (counterexample): input row [255, 0, masked].  The sentinel is
`np.max + 1 = 256`; stored into the uint8 buffer it wraps to 0 and collides
with the real class 0 during the histogram count; and after voting no cell
equals 256, so nothing is re-masked — the original nodata cell ends up
unmasked with the real class value 0. -/
theorem majorityVote_sentinel_counterexample :
    ((maxUnmasked [[255, 0, 7]] [[false, false, true]] + 1) % 256) ∈
        unmaskedVals [[255, 0, 7]] [[false, false, true]] ∧
      majorityVote (.maskedArr [[255, 0, 7]] [[false, false, true]]) 1 =
        .maskedArr [[0, 0, 0]] [[false, false, false]] := by
  constructor
  · decide
  · rfl

/-! ### Raster stacking and classification (`surfclass.classify`,
`surfclass.randomforestclassifier`) -/

/-- A GDAL geotransform with zero rotation terms, as `RasterReader` asserts:
`(originX, pixel_width, 0, originY, 0, pixel_height)` reduced to its four
nonzero entries.  `np.allclose` on geotransform tuples is modelled as exact
equality of these rationals. -/
structure GeoTf where
  originX : ℚ
  pixelWidth : ℚ
  originY : ℚ
  pixelHeight : ℚ
  deriving DecidableEq, Repr

/-- A single-band raster file as exposed by `rasterio.RasterReader`:
geotransform, pixel data and optional nodata value. -/
structure Raster where
  gt : GeoTf
  data : List (List ℚ)
  nodata : Option ℚ
  deriving DecidableEq, Repr

/-- `RasterReader.width` (`RasterXSize`). -/
def Raster.width (r : Raster) : ℕ := (r.data.headD []).length

/-- `RasterReader.height` (`RasterYSize`). -/
def Raster.height (r : Raster) : ℕ := r.data.length

/-- `RasterReader.bbox`. -/
def rasterBbox (r : Raster) : Bbox :=
  ⟨r.gt.originX, r.gt.originY + r.gt.pixelHeight * (r.height : ℚ),
    r.gt.originX + r.gt.pixelWidth * (r.width : ℚ), r.gt.originY⟩

/-- `RasterReader.bbox_to_pixel_window`: float pixel indices converted to ints
the way GDAL does (`int(x1 + 0.001)`, `int(x2 + 0.5)`); returns
`(column, row, numcolumns, numrows)`. -/
def bboxToPixelWindow (r : Raster) (b : Bbox) : ℤ × ℤ × ℤ × ℤ :=
  let x1 := pyTrunc ((b.xmin - r.gt.originX) / r.gt.pixelWidth + 1 / 1000)
  let y1 := pyTrunc ((b.ymax - r.gt.originY) / r.gt.pixelHeight + 1 / 1000)
  let x2 := pyTrunc ((b.xmax - r.gt.originX) / r.gt.pixelWidth + 1 / 2)
  let y2 := pyTrunc ((b.ymin - r.gt.originY) / r.gt.pixelHeight + 1 / 2)
  (x1, y1, x2 - x1, y2 - y1)

/-- `RasterReader.window_geotransform`. -/
def windowGeotransform (r : Raster) (w : ℤ × ℤ × ℤ × ℤ) : GeoTf :=
  ⟨r.gt.originX + w.1 * r.gt.pixelWidth, r.gt.pixelWidth,
    r.gt.originY + w.2.1 * r.gt.pixelHeight, r.gt.pixelHeight⟩

/-- `RasterReader.read_raster` on a pixel window `(col, row, cols, rows)`:
raise `ValueError` for a window outside the raster (checked first, in source
order), return an empty array for a non-positive window size, else the slice. -/
def readRaster (r : Raster) (w : ℤ × ℤ × ℤ × ℤ) :
    Except String (List (List ℚ)) :=
  if w.1 < 0 ∨ (r.width : ℤ) ≤ w.1 ∨ w.2.1 < 0 ∨ (r.height : ℤ) ≤ w.2.1 ∨
      w.2.2.1 < 0 ∨ (r.width : ℤ) < w.1 + w.2.2.1 ∨
      w.2.2.2 < 0 ∨ (r.height : ℤ) < w.2.1 + w.2.2.2 then
    .error "Window outside raster requested"
  else if w.2.2.1 ≤ 0 ∨ w.2.2.2 ≤ 0 then .ok []
  else .ok (((r.data.drop w.2.1.toNat).take w.2.2.2.toNat).map fun rw =>
    (rw.drop w.1.toNat).take w.2.2.1.toNat)

/-- The per-band nodata mask: `np.ma.masked_values(array, nodata)` when the
raster has a nodata value, `np.ma.array(array)` otherwise.  `np.ma.dstack`
combines band masks with `getmaskarray`, which expands an absent (`nomask`)
mask to an all-False array, so the mask is modelled as a full Boolean array in
both cases. -/
def bandMask (nodata : Option ℚ) (arr : List (List ℚ)) : List (List Bool) :=
  arr.map fun rw => rw.map fun v => isNodataVal nodata v

/-- `(rows, cols)` of a 2D array. -/
def arrShape (arr : List (List ℚ)) : ℕ × ℕ := (arr.length, (arr.headD []).length)

/-- One iteration of the loop in `classify.stack_rasters`: compute the pixel
window for the shared bbox, compute its geotransform, assert (source order:
before reading) that it equals the first raster's window geotransform — with
the FIXED message of the source assert, which does not name the mismatched
pair — then read the window and attach the band mask. -/
def stackStep (b : Bbox) (gt0 : GeoTf) (r : Raster) :
    Except String ((List (List ℚ) × List (List Bool)) × GeoTf × (ℕ × ℕ)) :=
  let w := bboxToPixelWindow r b
  let gt := windowGeotransform r w
  if gt = gt0 then
    (readRaster r w).map fun arr => ((arr, bandMask r.nodata arr), gt, arrShape arr)
  else
    .error "Features does not stack, geotransformations must be equal for all rasters"

/-- The result tuple of `classify.stack_rasters`: the dense
`(valid_cell_count, band_count)` matrix, the flattened `logical_or_mask`
(true = cell valid in ALL bands), the last window geotransform and the 2D
shape.  (The spatial reference is out of scope.) -/
structure StackOut where
  valid : List (List ℚ)
  sel : List Bool
  gt : GeoTf
  shp : ℕ × ℕ
  deriving DecidableEq, Repr

/-- `classify.stack_rasters`.  The bbox defaults to the first raster's bbox.
`np.ma.dstack` requires equal band shapes (modelled by the shape check) and
builds its mask with `getmaskarray`, so the stacked mask is always a full
Boolean array — even when no band has any masked cell — and the
`mask.any(axis=1)` reduction never sees a scalar `nomask`.  A cell is selected
(`logical_or_mask` true) iff no band masks it; `valid_features` keeps the
selected cells' values in band order. -/
def stackRasters (rs : List Raster) (bbIn : Option Bbox) :
    Except String StackOut :=
  match rs with
  | [] => .error "cannot stack an empty raster list"
  | r0 :: rest =>
    let b := bbIn.getD (rasterBbox r0)
    let gt0 := windowGeotransform r0 (bboxToPixelWindow r0 b)
    ((r0 :: rest).mapM (stackStep b gt0)).bind fun results =>
      let bands := results.map fun t => t.1
      let gtL := (results.getLast?.map fun t => t.2.1).getD gt0
      let shp := (results.getLast?.map fun t => t.2.2).getD (0, 0)
      if bands.all fun bd => decide (arrShape bd.1 = shp) then
        let len := shp.1 * shp.2
        let flats := bands.map fun bd => (bd.1.flatten, bd.2.flatten)
        let sel := (List.range len).map fun i =>
          !(flats.any fun f => f.2.getD i false)
        let valid := ((List.range len).filter fun i =>
          !(flats.any fun f => f.2.getD i false)).map fun i =>
          flats.map fun f => f.1.getD i 0
        .ok ⟨valid, sel, gtL, shp⟩
      else .error "all the input array dimensions must match exactly"

/-- `RandomForestClassifier.stack_features`: read every feature raster over
the shared bbox and attach its band mask; unlike `stack_rasters` there is NO
geotransform check (the source carries a TODO for it). -/
def stackFeatures (rs : List Raster) (b : Bbox) :
    Except String (List (List (List ℚ) × List (List Bool))) :=
  rs.mapM fun r => (readRaster r (bboxToPixelWindow r b)).map fun arr =>
    (arr, bandMask r.nodata arr)

/-- The mask application of `RandomForestClassifier.start`: the combined mask
is the source's explicit hack `mask_or = X.mask[:, :, 0]` — the FIRST band's
mask only — and the masked prediction is written with
`filled(fill_value=0)` and `nodata=0`, so an output cell holds 0 exactly when
the first band masks it or the predicted class is 0.  `pred i j` is the
opaque classifier's prediction for cell `(i, j)`. -/
def rfcOutput (bands : List (List (List ℚ) × List (List Bool)))
    (pred : ℕ → ℕ → ℤ) : List (List ℤ) :=
  let m := (bands.headD ([], [])).2
  let shp := arrShape (bands.headD ([], [])).1
  (List.range shp.1).map fun i => (List.range shp.2).map fun j =>
    if (m.getD i []).getD j false then 0 else pred i j

lemma mapM_ok_of_forall {α β : Type} (f : α → Except String β) (P : β → Prop)
    (l : List α) (h : ∀ x ∈ l, ∃ y, f x = .ok y ∧ P y) :
    ∃ ys, l.mapM f = .ok ys ∧ ys.length = l.length ∧ ∀ y ∈ ys, P y := by
  induction l with
  | nil => exact ⟨[], rfl, rfl, by simp⟩
  | cons x t ih =>
    obtain ⟨y, hy, hPy⟩ := h x (List.mem_cons_self x t)
    obtain ⟨ys, hys, hlen, hP⟩ := ih fun z hz => h z (List.mem_cons_of_mem x hz)
    refine ⟨y :: ys, ?_, by simp [hlen], ?_⟩
    · rw [List.mapM_cons, hy, hys]
      rfl
    · intro z hz
      rcases List.mem_cons.mp hz with rfl | hz
      · exact hPy
      · exact hP z hz

lemma mapM_cons_ok {α β : Type} (f : α → Except String β) (x : α) (t : List α)
    (ys : List β) (h : (x :: t).mapM f = .ok ys) :
    ∃ y ts, f x = .ok y ∧ t.mapM f = .ok ts ∧ ys = y :: ts := by
  rw [List.mapM_cons] at h
  cases hfx : f x with
  | error e => rw [hfx] at h; exact Except.noConfusion h
  | ok y =>
    rw [hfx] at h
    cases hmt : t.mapM f with
    | error e => rw [hmt] at h; exact Except.noConfusion h
    | ok ts =>
      rw [hmt] at h
      exact ⟨y, ts, rfl, rfl, (Except.ok.inj h).symm⟩

lemma getLast?_of_ne_nil {α : Type} (l : List α) (h : l ≠ []) :
    ∃ a, l.getLast? = some a ∧ a ∈ l := by
  cases hl : l.getLast? with
  | none =>
    rw [List.getLast?_eq_none_iff] at hl
    exact absurd hl h
  | some a => exact ⟨a, rfl, List.mem_of_mem_getLast? hl⟩

lemma getD_false_of_all_false (l : List Bool) (h : ∀ v ∈ l, v = false) (i : ℕ) :
    l.getD i false = false := by
  rw [List.getD_eq_getElem?_getD]
  cases hv : l[i]? with
  | none => rfl
  | some v => exact h v (List.getElem?_mem hv)

/-- For co-registered rasters, `read_raster` succeeds on every raster of the
list once it succeeds on the first one, producing arrays of one common shape
whose values all come from the rasters' data. -/
lemma readRaster_ok_of_ok (r r0 : Raster) (w : ℤ × ℤ × ℤ × ℤ) (R C : ℕ)
    (hR1 : 1 ≤ R) (hh : r.data.length = R) (hh0 : r0.data.length = R)
    (hc : ∀ row ∈ r.data, row.length = C) (hc0 : ∀ row ∈ r0.data, row.length = C)
    (arr0 : List (List ℚ)) (hread : readRaster r0 w = .ok arr0) :
    ∃ arr, readRaster r w = .ok arr ∧ arrShape arr = arrShape arr0 ∧
      ∀ row ∈ arr, ∀ v ∈ row, ∃ row2 ∈ r.data, v ∈ row2 := by
  have hwid : r.width = C := by
    refine headD_length r.data hc ?_
    intro hnil
    rw [hnil] at hh
    simp at hh
    omega
  have hwid0 : r0.width = C := by
    refine headD_length r0.data hc0 ?_
    intro hnil
    rw [hnil] at hh0
    simp at hh0
    omega
  have hhei : r.height = R := hh
  have hhei0 : r0.height = R := hh0
  unfold readRaster at hread ⊢
  rw [hwid0, hhei0] at hread
  rw [hwid, hhei]
  by_cases h1 : w.1 < 0 ∨ (C : ℤ) ≤ w.1 ∨ w.2.1 < 0 ∨ (R : ℤ) ≤ w.2.1 ∨
      w.2.2.1 < 0 ∨ (C : ℤ) < w.1 + w.2.2.1 ∨
      w.2.2.2 < 0 ∨ (R : ℤ) < w.2.1 + w.2.2.2
  · rw [if_pos h1] at hread
    exact Except.noConfusion hread
  · rw [if_neg h1] at hread
    rw [if_neg h1]
    by_cases h2 : w.2.2.1 ≤ 0 ∨ w.2.2.2 ≤ 0
    · rw [if_pos h2] at hread
      rw [if_pos h2]
      refine ⟨[], rfl, ?_, by simp⟩
      rw [← Except.ok.inj hread]
    · rw [if_neg h2] at hread
      rw [if_neg h2]
      push_neg at h1 h2
      obtain ⟨hb1, hb2, hb3, hb4, hb5, hb6, hb7, hb8⟩ := h1
      refine ⟨_, rfl, ?_, ?_⟩
      · have hlen : ∀ (d : List (List ℚ)), d.length = R →
            (∀ row ∈ d, row.length = C) →
            arrShape (((d.drop w.2.1.toNat).take w.2.2.2.toNat).map fun rw =>
              (rw.drop w.1.toNat).take w.2.2.1.toNat) =
              (w.2.2.2.toNat, w.2.2.1.toNat) := by
          intro d hd hcd
          have houter : (((d.drop w.2.1.toNat).take w.2.2.2.toNat).map fun rw =>
              (rw.drop w.1.toNat).take w.2.2.1.toNat).length = w.2.2.2.toNat := by
            simp only [List.length_map, List.length_take, List.length_drop, hd]
            omega
          have hrows : ∀ row ∈ ((d.drop w.2.1.toNat).take w.2.2.2.toNat).map
              (fun rw => (rw.drop w.1.toNat).take w.2.2.1.toNat),
              row.length = w.2.2.1.toNat := by
            intro row hrow
            obtain ⟨rw0, hrw0, rfl⟩ := List.mem_map.mp hrow
            have hrwmem : rw0 ∈ d :=
              List.mem_of_mem_drop (List.mem_of_mem_take hrw0)
            simp only [List.length_take, List.length_drop, hcd rw0 hrwmem]
            omega
          unfold arrShape
          rw [houter]
          have hne2 : (((d.drop w.2.1.toNat).take w.2.2.2.toNat).map fun rw =>
              (rw.drop w.1.toNat).take w.2.2.1.toNat) ≠ [] := by
            intro hnil
            rw [hnil] at houter
            simp at houter
            omega
          rw [headD_length _ hrows hne2]
        rw [hlen r.data hh hc, ← Except.ok.inj hread, hlen r0.data hh0 hc0]
      · intro row hrow v hv
        obtain ⟨rw0, hrw0, rfl⟩ := List.mem_map.mp hrow
        exact ⟨rw0, List.mem_of_mem_drop (List.mem_of_mem_take hrw0),
          List.mem_of_mem_drop (List.mem_of_mem_take hv)⟩

lemma bboxToPixelWindow_congr (r r0 : Raster) (b : Bbox) (h : r.gt = r0.gt) :
    bboxToPixelWindow r b = bboxToPixelWindow r0 b := by
  unfold bboxToPixelWindow
  rw [h]

lemma windowGeotransform_congr (r r0 : Raster) (w : ℤ × ℤ × ℤ × ℤ)
    (h : r.gt = r0.gt) : windowGeotransform r w = windowGeotransform r0 w := by
  unfold windowGeotransform
  rw [h]

lemma any_flat_false {α : Type} (l : List (List α)) (p : α → Bool)
    (h : ∀ row ∈ l, ∀ v ∈ row, p v = false) :
    ∀ v ∈ l.flatten, p v = false := by
  intro v hv
  obtain ⟨row, hrow, hvr⟩ := List.mem_flatten.mp hv
  exact h row hrow v hvr

/-- Co-registered rasters (equal geotransform, equal `(R, C)` data shape) whose
shared window read succeeds on the first raster stack successfully; when no
cell of any raster equals its nodata value, every cell is selected. -/
lemma stackRasters_coreg (r0 : Raster) (rest : List Raster) (b : Bbox)
    (R C : ℕ) (arr0 : List (List ℚ))
    (hgt : ∀ r ∈ r0 :: rest, r.gt = r0.gt)
    (hshape : ∀ r ∈ r0 :: rest,
      r.data.length = R ∧ ∀ row ∈ r.data, row.length = C)
    (hread : readRaster r0 (bboxToPixelWindow r0 b) = .ok arr0) :
    ∃ out, stackRasters (r0 :: rest) (some b) = .ok out ∧
      out.shp = arrShape arr0 ∧
      ((∀ r ∈ r0 :: rest, ∀ row ∈ r.data, ∀ v ∈ row,
          isNodataVal r.nodata v = false) →
        out.sel.all id = true ∧
          out.valid.length = out.shp.1 * out.shp.2) := by
  by_cases hR1 : 1 ≤ R
  case neg =>
    exfalso
    have hH0 : (r0.height : ℤ) = 0 := by
      have := (hshape r0 (List.mem_cons_self _ _)).1
      unfold Raster.height
      omega
    have hcnd : (bboxToPixelWindow r0 b).1 < 0 ∨
        ((r0.width : ℕ) : ℤ) ≤ (bboxToPixelWindow r0 b).1 ∨
        (bboxToPixelWindow r0 b).2.1 < 0 ∨
        ((r0.height : ℕ) : ℤ) ≤ (bboxToPixelWindow r0 b).2.1 ∨
        (bboxToPixelWindow r0 b).2.2.1 < 0 ∨
        ((r0.width : ℕ) : ℤ) < (bboxToPixelWindow r0 b).1 +
          (bboxToPixelWindow r0 b).2.2.1 ∨
        (bboxToPixelWindow r0 b).2.2.2 < 0 ∨
        ((r0.height : ℕ) : ℤ) < (bboxToPixelWindow r0 b).2.1 +
          (bboxToPixelWindow r0 b).2.2.2 := by
      rcases lt_or_le (bboxToPixelWindow r0 b).2.1 0 with hneg | hpos
      · exact Or.inr (Or.inr (Or.inl hneg))
      · exact Or.inr (Or.inr (Or.inr (Or.inl (by omega))))
    unfold readRaster at hread
    rw [if_pos hcnd] at hread
    exact Except.noConfusion hread
  case pos =>
    have hstep : ∀ r ∈ r0 :: rest, ∃ y,
        stackStep b (windowGeotransform r0 (bboxToPixelWindow r0 b)) r = .ok y ∧
        (arrShape y.1.1 = arrShape arr0 ∧ y.2.2 = arrShape arr0 ∧
          ((∀ q ∈ r0 :: rest, ∀ row ∈ q.data, ∀ v ∈ row,
              isNodataVal q.nodata v = false) →
            ∀ mrow ∈ y.1.2, ∀ bv ∈ mrow, bv = false)) := by
      intro r hr
      have hgtr := hgt r hr
      have hwr : bboxToPixelWindow r b = bboxToPixelWindow r0 b :=
        bboxToPixelWindow_congr r r0 b hgtr
      have hgtw : windowGeotransform r (bboxToPixelWindow r0 b) =
          windowGeotransform r0 (bboxToPixelWindow r0 b) :=
        windowGeotransform_congr r r0 _ hgtr
      obtain ⟨arr, harr, hshp, hvals⟩ := readRaster_ok_of_ok r r0
        (bboxToPixelWindow r0 b) R C hR1
        (hshape r hr).1 (hshape r0 (List.mem_cons_self _ _)).1
        (hshape r hr).2 (hshape r0 (List.mem_cons_self _ _)).2 arr0 hread
      refine ⟨((arr, bandMask r.nodata arr),
        windowGeotransform r0 (bboxToPixelWindow r0 b), arrShape arr),
        ?_, hshp, hshp, ?_⟩
      · simp only [stackStep, hwr, hgtw, if_pos rfl, harr]
        rfl
      · intro hAV mrow hmrow bv hbv
        unfold bandMask at hmrow
        obtain ⟨row, hrow, rfl⟩ := List.mem_map.mp hmrow
        obtain ⟨v, hv, rfl⟩ := List.mem_map.mp hbv
        obtain ⟨row2, hrow2, hv2⟩ := hvals row hrow v hv
        exact hAV r hr row2 hrow2 v hv2
    obtain ⟨ys, hys, hlen, hP⟩ := mapM_ok_of_forall _ _ (r0 :: rest) hstep
    have hysne : ys ≠ [] := by
      intro h
      rw [h] at hlen
      simp at hlen
    obtain ⟨last, hlast, hlastmem⟩ := getLast?_of_ne_nil ys hysne
    have hshpv : ((ys.getLast?.map fun t => t.2.2).getD (0, 0)) = arrShape arr0 := by
      rw [hlast]
      exact (hP last hlastmem).2.1
    have hall : ((ys.map fun t => t.1).all fun bd =>
        decide (arrShape bd.1 = (ys.getLast?.map fun t => t.2.2).getD (0, 0))) =
        true := by
      rw [List.all_eq_true]
      intro bd hbd
      obtain ⟨y, hy, rfl⟩ := List.mem_map.mp hbd
      rw [hshpv]
      exact decide_eq_true (hP y hy).1
    refine ⟨StackOut.mk
        (((List.range (((ys.getLast?.map fun t => t.2.2).getD (0, 0)).1 *
          ((ys.getLast?.map fun t => t.2.2).getD (0, 0)).2)).filter fun i =>
          !(((ys.map fun t => t.1).map fun bd =>
            (bd.1.flatten, bd.2.flatten)).any fun f => f.2.getD i false)).map
          fun i => ((ys.map fun t => t.1).map fun bd =>
            (bd.1.flatten, bd.2.flatten)).map fun f => f.1.getD i 0)
        ((List.range (((ys.getLast?.map fun t => t.2.2).getD (0, 0)).1 *
          ((ys.getLast?.map fun t => t.2.2).getD (0, 0)).2)).map fun i =>
          !(((ys.map fun t => t.1).map fun bd =>
            (bd.1.flatten, bd.2.flatten)).any fun f => f.2.getD i false))
        ((ys.getLast?.map fun t => t.2.1).getD
          (windowGeotransform r0 (bboxToPixelWindow r0 b)))
        ((ys.getLast?.map fun t => t.2.2).getD (0, 0)), ?_, ?_, ?_⟩
    · simp only [stackRasters, Option.getD_some]
      rw [hys]
      simp only [Except.bind]
      rw [if_pos hall]
    · exact hshpv
    · intro hAV
      have hmaskfalse : ∀ f ∈ (ys.map fun t => t.1).map
          (fun bd => (bd.1.flatten, bd.2.flatten)), ∀ i : ℕ,
          f.2.getD i false = false := by
        intro f hf i
        obtain ⟨bd, hbd, rfl⟩ := List.mem_map.mp hf
        obtain ⟨y, hy, rfl⟩ := List.mem_map.mp hbd
        refine getD_false_of_all_false _ ?_ i
        exact any_flat_false _ _ fun mrow hmrow bv hbv =>
          (hP y hy).2.2 hAV mrow hmrow bv hbv
      have hanyfalse : ∀ i : ℕ, (((ys.map fun t => t.1).map
          fun bd => (bd.1.flatten, bd.2.flatten)).any
          fun f => f.2.getD i false) = false := by
        intro i
        rw [List.any_eq_false]
        intro f hf
        rw [hmaskfalse f hf i]
        exact Bool.false_ne_true
      constructor
      · rw [List.all_eq_true]
        intro x hx
        obtain ⟨i, _, rfl⟩ := List.mem_map.mp hx
        rw [hanyfalse i]
        rfl
      · rw [List.length_map]
        rw [List.filter_eq_self.mpr fun i _ => by rw [hanyfalse i]; rfl]
        rw [List.length_range]

/-- C10 (amended): `stack_rasters` does not raise during the combined-mask
reduction on degenerate all-valid input.  For co-registered rasters whose
shared window read succeeds it returns normally in every case (`np.ma.dstack`
expands absent per-band masks to all-False arrays via `getmaskarray`, so
`mask.any(axis=1)` never sees a scalar `nomask`); when no cell of any input
equals its raster's nodata value, every cell is selected and the returned
matrix has `rows*cols` rows. -/
theorem stackRasters_allvalid_returns (r0 : Raster) (rest : List Raster)
    (b : Bbox) (R C : ℕ) (arr0 : List (List ℚ))
    (hgt : ∀ r ∈ r0 :: rest, r.gt = r0.gt)
    (hshape : ∀ r ∈ r0 :: rest,
      r.data.length = R ∧ ∀ row ∈ r.data, row.length = C)
    (hread : readRaster r0 (bboxToPixelWindow r0 b) = .ok arr0) :
    ∃ out, stackRasters (r0 :: rest) (some b) = .ok out ∧
      ((∀ r ∈ r0 :: rest, ∀ row ∈ r.data, ∀ v ∈ row,
          isNodataVal r.nodata v = false) →
        out.sel.all id = true ∧
          out.valid.length = out.shp.1 * out.shp.2) := by
  obtain ⟨out, h1, _, h3⟩ := stackRasters_coreg r0 rest b R C arr0 hgt hshape hread
  exact ⟨out, h1, h3⟩

/-- Witness for `stackRasters_allvalid_returns` on a concrete single raster
with nodata 9 and no cell equal to 9. -/
theorem stackRasters_allvalid_returns_witness :
    ∃ out, stackRasters [⟨⟨0, 1, 2, -1⟩, [[1, 2], [3, 4]], some 9⟩]
        (some ⟨0, 0, 2, 2⟩) = .ok out ∧
      ((∀ r ∈ [(⟨⟨0, 1, 2, -1⟩, [[1, 2], [3, 4]], some 9⟩ : Raster)],
          ∀ row ∈ r.data, ∀ v ∈ row, isNodataVal r.nodata v = false) →
        out.sel.all id = true ∧
          out.valid.length = out.shp.1 * out.shp.2) := by
  have hwin : bboxToPixelWindow ⟨⟨0, 1, 2, -1⟩, [[1, 2], [3, 4]], some 9⟩
      ⟨0, 0, 2, 2⟩ = (0, 0, 2, 2) := by
    norm_num [bboxToPixelWindow, pyTrunc, Prod.ext_iff]
  refine stackRasters_allvalid_returns _ [] _ 2 2 [[1, 2], [3, 4]] ?_ ?_ ?_
  · intro r hr
    rw [List.mem_singleton] at hr
    rw [hr]
  · intro r hr
    rw [List.mem_singleton] at hr
    subst hr
    exact ⟨rfl, by decide⟩
  · rw [hwin]
    rfl

/-- C10 (counterexample): one input raster with nodata 9 and no cell equal
to 9 — `stack_rasters` returns normally with the full matrix and every cell
valid, instead of raising during the combined-mask reduction. -/
theorem stackRasters_allvalid_counterexample :
    stackRasters [⟨⟨0, 1, 2, -1⟩, [[1, 2], [3, 4]], some 9⟩]
        (some ⟨0, 0, 2, 2⟩) =
      .ok ⟨[[1], [2], [3], [4]], [true, true, true, true],
        ⟨0, 1, 2, -1⟩, (2, 2)⟩ := by
  have hwin : bboxToPixelWindow ⟨⟨0, 1, 2, -1⟩, [[1, 2], [3, 4]], some 9⟩
      ⟨0, 0, 2, 2⟩ = (0, 0, 2, 2) := by
    norm_num [bboxToPixelWindow, pyTrunc, Prod.ext_iff]
  have hgt0 : windowGeotransform ⟨⟨0, 1, 2, -1⟩, [[1, 2], [3, 4]], some 9⟩
      (0, 0, 2, 2) = ⟨0, 1, 2, -1⟩ := by
    norm_num [windowGeotransform, GeoTf.mk.injEq]
  have hstep : stackStep ⟨0, 0, 2, 2⟩ ⟨0, 1, 2, -1⟩
      ⟨⟨0, 1, 2, -1⟩, [[1, 2], [3, 4]], some 9⟩ =
      .ok ((([[1, 2], [3, 4]] : List (List ℚ)),
        [[false, false], [false, false]]), (⟨0, 1, 2, -1⟩ : GeoTf),
        ((2 : ℕ), (2 : ℕ))) := by
    simp only [stackStep, hwin, hgt0, if_pos rfl]
    rfl
  have hmapM : List.mapM (stackStep ⟨0, 0, 2, 2⟩ ⟨0, 1, 2, -1⟩)
      [⟨⟨0, 1, 2, -1⟩, [[1, 2], [3, 4]], some 9⟩] =
      .ok [((([[1, 2], [3, 4]] : List (List ℚ)),
        [[false, false], [false, false]]), (⟨0, 1, 2, -1⟩ : GeoTf),
        ((2 : ℕ), (2 : ℕ)))] := by
    rw [List.mapM_cons, hstep, List.mapM_nil]
    rfl
  simp only [stackRasters, Option.getD_some, hwin, hgt0]
  rw [hmapM]
  rfl

/-- C5 (amended): the alignment check of `stack_rasters` compares only the
WINDOW geotransforms against the first raster's, and on mismatch fails with
the FIXED message "Features does not stack, geotransformations must be equal
for all rasters", which does not name the mismatched pair; co-registered
rasters (equal geotransform and data shape) whose shared window read succeeds
stack successfully.  (Rasters whose full-raster origins differ by a whole
number of pixels produce equal window geotransforms and also stack
successfully — see the counterexample.) -/
theorem stackRasters_alignment :
    (∀ (r0 r1 : Raster) (b : Bbox) (arr0 : List (List ℚ)),
      readRaster r0 (bboxToPixelWindow r0 b) = .ok arr0 →
      windowGeotransform r1 (bboxToPixelWindow r1 b) ≠
        windowGeotransform r0 (bboxToPixelWindow r0 b) →
      stackRasters [r0, r1] (some b) =
        .error
          "Features does not stack, geotransformations must be equal for all rasters") ∧
    (∀ (r0 : Raster) (rest : List Raster) (b : Bbox) (R C : ℕ)
      (arr0 : List (List ℚ)),
      (∀ r ∈ r0 :: rest, r.gt = r0.gt) →
      (∀ r ∈ r0 :: rest, r.data.length = R ∧ ∀ row ∈ r.data, row.length = C) →
      readRaster r0 (bboxToPixelWindow r0 b) = .ok arr0 →
      ∃ out, stackRasters (r0 :: rest) (some b) = .ok out) := by
  constructor
  · intro r0 r1 b arr0 hread hne
    have hstep0 : stackStep b (windowGeotransform r0 (bboxToPixelWindow r0 b))
        r0 = .ok ((arr0, bandMask r0.nodata arr0),
          windowGeotransform r0 (bboxToPixelWindow r0 b), arrShape arr0) := by
      simp only [stackStep, if_pos rfl, hread]
      rfl
    have hstep1 : stackStep b (windowGeotransform r0 (bboxToPixelWindow r0 b))
        r1 = .error
          "Features does not stack, geotransformations must be equal for all rasters" := by
      simp only [stackStep, if_neg hne]
    simp only [stackRasters, Option.getD_some]
    rw [List.mapM_cons, hstep0, List.mapM_cons, hstep1, List.mapM_nil]
    rfl
  · intro r0 rest b R C arr0 hgt hshape hread
    obtain ⟨out, h1, _, _⟩ := stackRasters_coreg r0 rest b R C arr0 hgt hshape hread
    exact ⟨out, h1⟩

/-- Witness for `stackRasters_alignment`: a concrete pair whose window
geotransforms differ (origins 0 and 1/2) fails with the fixed message. -/
theorem stackRasters_alignment_witness :
    stackRasters [⟨⟨0, 1, 2, -1⟩, [[1, 2], [3, 4]], none⟩,
        ⟨⟨1/2, 1, 2, -1⟩, [[1, 2], [3, 4]], none⟩] (some ⟨0, 0, 2, 2⟩) =
      .error
        "Features does not stack, geotransformations must be equal for all rasters" := by
  have hwin0 : bboxToPixelWindow ⟨⟨0, 1, 2, -1⟩, [[1, 2], [3, 4]], none⟩
      ⟨0, 0, 2, 2⟩ = (0, 0, 2, 2) := by
    norm_num [bboxToPixelWindow, pyTrunc, Prod.ext_iff]
  have hwin1 : bboxToPixelWindow ⟨⟨1/2, 1, 2, -1⟩, [[1, 2], [3, 4]], none⟩
      ⟨0, 0, 2, 2⟩ = (0, 0, 2, 2) := by
    norm_num [bboxToPixelWindow, pyTrunc, Prod.ext_iff]
  refine stackRasters_alignment.1 _ _ _ [[1, 2], [3, 4]] ?_ ?_
  · rw [hwin0]
    rfl
  · rw [hwin0, hwin1]
    norm_num [windowGeotransform, GeoTf.mk.injEq]

/-- C5 (counterexample): two rasters whose raster-level geotransforms differ
(origins 0 and -5, all else equal, extents one pixel-grid apart) are NOT
"pairwise equal", yet stacking SUCCEEDS: the window read from each raster for
the common bbox has the same window geotransform, which is all the source
checks. -/
theorem stackRasters_origin_mismatch_counterexample :
    (⟨⟨0, 1, 2, -1⟩, [[1, 2], [3, 4]], none⟩ : Raster).gt ≠
        (⟨⟨-5, 1, 2, -1⟩, [[9, 9, 9, 9, 9, 5, 6], [9, 9, 9, 9, 9, 7, 8]],
          none⟩ : Raster).gt ∧
      stackRasters [⟨⟨0, 1, 2, -1⟩, [[1, 2], [3, 4]], none⟩,
          ⟨⟨-5, 1, 2, -1⟩, [[9, 9, 9, 9, 9, 5, 6], [9, 9, 9, 9, 9, 7, 8]],
            none⟩] (some ⟨0, 0, 2, 2⟩) =
        .ok ⟨[[1, 5], [2, 6], [3, 7], [4, 8]], [true, true, true, true],
          ⟨0, 1, 2, -1⟩, (2, 2)⟩ := by
  constructor
  · intro h
    injection h with h1
    norm_num at h1
  · have hwin0 : bboxToPixelWindow ⟨⟨0, 1, 2, -1⟩, [[1, 2], [3, 4]], none⟩
        ⟨0, 0, 2, 2⟩ = (0, 0, 2, 2) := by
      norm_num [bboxToPixelWindow, pyTrunc, Prod.ext_iff]
    have hwin1 : bboxToPixelWindow
        ⟨⟨-5, 1, 2, -1⟩, [[9, 9, 9, 9, 9, 5, 6], [9, 9, 9, 9, 9, 7, 8]], none⟩
        ⟨0, 0, 2, 2⟩ = (5, 0, 2, 2) := by
      norm_num [bboxToPixelWindow, pyTrunc, Prod.ext_iff]
    have hgt0 : windowGeotransform ⟨⟨0, 1, 2, -1⟩, [[1, 2], [3, 4]], none⟩
        (0, 0, 2, 2) = ⟨0, 1, 2, -1⟩ := by
      norm_num [windowGeotransform, GeoTf.mk.injEq]
    have hgt1 : windowGeotransform
        ⟨⟨-5, 1, 2, -1⟩, [[9, 9, 9, 9, 9, 5, 6], [9, 9, 9, 9, 9, 7, 8]], none⟩
        (5, 0, 2, 2) = ⟨0, 1, 2, -1⟩ := by
      norm_num [windowGeotransform, GeoTf.mk.injEq]
    have hstep0 : stackStep ⟨0, 0, 2, 2⟩ ⟨0, 1, 2, -1⟩
        ⟨⟨0, 1, 2, -1⟩, [[1, 2], [3, 4]], none⟩ =
        .ok ((([[1, 2], [3, 4]] : List (List ℚ)),
          [[false, false], [false, false]]), (⟨0, 1, 2, -1⟩ : GeoTf),
          ((2 : ℕ), (2 : ℕ))) := by
      simp only [stackStep, hwin0, hgt0, if_pos rfl]
      rfl
    have hstep1 : stackStep ⟨0, 0, 2, 2⟩ ⟨0, 1, 2, -1⟩
        ⟨⟨-5, 1, 2, -1⟩, [[9, 9, 9, 9, 9, 5, 6], [9, 9, 9, 9, 9, 7, 8]],
          none⟩ =
        .ok ((([[5, 6], [7, 8]] : List (List ℚ)),
          [[false, false], [false, false]]), (⟨0, 1, 2, -1⟩ : GeoTf),
          ((2 : ℕ), (2 : ℕ))) := by
      simp only [stackStep, hwin1, hgt1, if_pos rfl]
      rfl
    have hmapM : List.mapM (stackStep ⟨0, 0, 2, 2⟩ ⟨0, 1, 2, -1⟩)
        [⟨⟨0, 1, 2, -1⟩, [[1, 2], [3, 4]], none⟩,
          ⟨⟨-5, 1, 2, -1⟩, [[9, 9, 9, 9, 9, 5, 6], [9, 9, 9, 9, 9, 7, 8]],
            none⟩] =
        .ok [((([[1, 2], [3, 4]] : List (List ℚ)),
            [[false, false], [false, false]]), (⟨0, 1, 2, -1⟩ : GeoTf),
            ((2 : ℕ), (2 : ℕ))),
          ((([[5, 6], [7, 8]] : List (List ℚ)),
            [[false, false], [false, false]]), (⟨0, 1, 2, -1⟩ : GeoTf),
            ((2 : ℕ), (2 : ℕ)))] := by
      rw [List.mapM_cons, hstep0, List.mapM_cons, hstep1, List.mapM_nil]
      rfl
    simp only [stackRasters, Option.getD_some, hwin0, hgt0]
    rw [hmapM]
    rfl

lemma bandMask_getD (nd : Option ℚ) (arr : List (List ℚ)) (i j C : ℕ)
    (hrect : ∀ row ∈ arr, row.length = C) (hi : i < arr.length) (hj : j < C) :
    ((bandMask nd arr).getD i []).getD j false =
      isNodataVal nd ((arr.getD i []).getD j 0) := by
  obtain ⟨row, hrow⟩ : ∃ row, arr[i]? = some row :=
    ⟨_, List.getElem?_eq_getElem hi⟩
  have hrowmem : row ∈ arr := List.getElem?_mem hrow
  have hjr : j < row.length := by rw [hrect row hrowmem]; omega
  obtain ⟨v, hv⟩ : ∃ v, row[j]? = some v :=
    ⟨_, List.getElem?_eq_getElem hjr⟩
  unfold bandMask
  simp only [List.getD_eq_getElem?_getD, List.getElem?_map, hrow,
    Option.map_some', Option.getD_some, hv]

/-- C2 (amended): in the classified output written by
`RandomForestClassifier.start`, a cell is nodata (0) if and only if the FIRST
input feature band is nodata at that cell (the source's "Hack:
`mask_or = X.mask[:, :, 0]`"), not the logical OR of all per-band masks —
provided the classifier never predicts the class 0 used as output nodata.
(The CLI path through `classify.stack_rasters` does compute the true OR mask.) -/
theorem rfcOutput_first_band_mask (r0 : Raster) (rrest : List Raster) (b : Bbox)
    (arr0 : List (List ℚ))
    (bands : List (List (List ℚ) × List (List Bool))) (pred : ℕ → ℕ → ℤ)
    (i j C : ℕ)
    (hread : readRaster r0 (bboxToPixelWindow r0 b) = .ok arr0)
    (hbands : stackFeatures (r0 :: rrest) b = .ok bands)
    (hrect : ∀ row ∈ arr0, row.length = C)
    (hi : i < arr0.length) (hj : j < C)
    (hC : (arr0.headD []).length = C)
    (hpred : pred i j ≠ 0) :
    (((rfcOutput bands pred).getD i []).getD j 0 = 0 ↔
      isNodataVal r0.nodata ((arr0.getD i []).getD j 0) = true) := by
  obtain ⟨y, ts, hy, _, rfl⟩ := mapM_cons_ok _ r0 rrest bands hbands
  have hy2 : y = (arr0, bandMask r0.nodata arr0) := by
    rw [hread] at hy
    exact (Except.ok.inj hy).symm
  subst hy2
  unfold rfcOutput
  simp only [List.headD_cons]
  have hj2 : j < (arrShape arr0).2 := by
    unfold arrShape
    omega
  have hi2 : i < (arrShape arr0).1 := hi
  rw [getD_map_range _ _ _ _ hi2, getD_map_range _ _ _ _ hj2]
  simp only [bandMask_getD r0.nodata arr0 i j C hrect hi hj]
  by_cases hmask : isNodataVal r0.nodata ((arr0.getD i []).getD j 0) = true
  · rw [hmask, if_pos rfl]
    simp [hmask]
  · have hmf : isNodataVal r0.nodata ((arr0.getD i []).getD j 0) = false :=
      Bool.eq_false_iff.mpr hmask
    rw [hmf]
    simp only [Bool.false_eq_true, if_false]
    constructor
    · intro h
      exact absurd h hpred
    · intro h
      exact h.elim

/-- Witness for `rfcOutput_first_band_mask` on a concrete two-band stack. -/
theorem rfcOutput_first_band_mask_witness :
    (((rfcOutput [(([[(1 : ℚ)]] : List (List ℚ)), [[false]]),
        (([[(9 : ℚ)]] : List (List ℚ)), [[true]])]
        (fun _ _ => 3)).getD 0 []).getD 0 0 = 0 ↔
      isNodataVal (some 9) ((([[(1 : ℚ)]] : List (List ℚ)).getD 0 []).getD 0 0) =
        true) := by
  have hwinA : bboxToPixelWindow ⟨⟨0, 1, 1, -1⟩, [[1]], some 9⟩ ⟨0, 0, 1, 1⟩ =
      (0, 0, 1, 1) := by
    norm_num [bboxToPixelWindow, pyTrunc, Prod.ext_iff]
  have hwinB : bboxToPixelWindow ⟨⟨0, 1, 1, -1⟩, [[9]], some 9⟩ ⟨0, 0, 1, 1⟩ =
      (0, 0, 1, 1) := by
    norm_num [bboxToPixelWindow, pyTrunc, Prod.ext_iff]
  have hreadA : readRaster ⟨⟨0, 1, 1, -1⟩, [[1]], some 9⟩ (0, 0, 1, 1) =
      .ok [[1]] := by rfl
  have hbands : stackFeatures [⟨⟨0, 1, 1, -1⟩, [[1]], some 9⟩,
      ⟨⟨0, 1, 1, -1⟩, [[9]], some 9⟩] ⟨0, 0, 1, 1⟩ =
      .ok [(([[(1 : ℚ)]] : List (List ℚ)), [[false]]),
        (([[(9 : ℚ)]] : List (List ℚ)), [[true]])] := by
    unfold stackFeatures
    rw [List.mapM_cons, List.mapM_cons, List.mapM_nil, hwinA, hwinB]
    rfl
  exact rfcOutput_first_band_mask ⟨⟨0, 1, 1, -1⟩, [[1]], some 9⟩
    [⟨⟨0, 1, 1, -1⟩, [[9]], some 9⟩] ⟨0, 0, 1, 1⟩ [[1]] _ (fun _ _ => 3) 0 0 1
    (by rw [hwinA]; rfl) hbands (by decide) (by decide) (by decide) rfl
    (by decide)

/-- C2 (counterexample): two stacked bands, the second nodata at the only
cell; the classified output holds the (nonzero) predicted class there, NOT
nodata — the combined mask is the first band's mask only, so "nodata iff at
least one band is nodata" fails. -/
theorem rfcOutput_or_mask_counterexample :
    stackFeatures [⟨⟨0, 1, 1, -1⟩, [[1]], some 9⟩,
        ⟨⟨0, 1, 1, -1⟩, [[9]], some 9⟩] ⟨0, 0, 1, 1⟩ =
      .ok [(([[(1 : ℚ)]] : List (List ℚ)), [[false]]),
        (([[(9 : ℚ)]] : List (List ℚ)), [[true]])] ∧
    rfcOutput [(([[(1 : ℚ)]] : List (List ℚ)), [[false]]),
        (([[(9 : ℚ)]] : List (List ℚ)), [[true]])] (fun _ _ => 3) = [[3]] ∧
    isNodataVal (some (9 : ℚ)) 9 = true ∧ (3 : ℤ) ≠ 0 := by
  refine ⟨?_, by rfl, by decide, by decide⟩
  have hwinA : bboxToPixelWindow ⟨⟨0, 1, 1, -1⟩, [[1]], some 9⟩ ⟨0, 0, 1, 1⟩ =
      (0, 0, 1, 1) := by
    norm_num [bboxToPixelWindow, pyTrunc, Prod.ext_iff]
  have hwinB : bboxToPixelWindow ⟨⟨0, 1, 1, -1⟩, [[9]], some 9⟩ ⟨0, 0, 1, 1⟩ =
      (0, 0, 1, 1) := by
    norm_num [bboxToPixelWindow, pyTrunc, Prod.ext_iff]
  unfold stackFeatures
  rw [List.mapM_cons, List.mapM_cons, List.mapM_nil, hwinA, hwinB]
  rfl

end Surfclass
